import Mathlib

/-!
roboptim-core: `Problem` constraint storage.

A shallow embedding of `include/roboptim/core/problem.hxx`, of the class declared in
`include/roboptim/core/numeric-linear-function.hh` and of `plot_jac` in
`src/visualization/gnuplot-differentiable-function.cc`.

* The scalar type `Function::value_type` is a parameter `V`; the code only stores
  scalars and compares them with `<=`, so `V` carries `0`, `1` and a decidable `≤`.
* `std::vector` is `List`, `boost::optional` is `Option`, sizes are `Nat`.
* A member function that can stop early returns the `Status` with which it stopped,
  together with the object as it is at that point.
* Assertions are modelled as enabled.
* A function declared `throw ()` lets no exception out: one thrown inside ends the call
  in `std::unexpected ()`.
* The output stream of `print` is the list of the operands given to `operator<<`.
-/

namespace roboptim

/-! ## Data model -/

/-- How a call ends: it returns, it throws `std::runtime_error`, an `assert` fails,
or a null `shared_ptr` is dereferenced. The last end is that of
`boost::shared_ptr<T>::operator->`, declared outside this source tree, which checks
`BOOST_ASSERT (px != 0)` before it hands out the pointer: with assertions enabled the
program stops on that assertion and nothing is read through the pointer. Further
ends: `boost::get` throws
`boost::bad_get`; an exception reaches the boundary of a function whose exception
specification does not allow it, so that `std::unexpected ()` is called and the
exception does not reach the caller; a vector is read or written past its end. -/
inductive Status where
  | returned
  | runtime_error (what : String)
  | assertion_failed (expr : String)
  | null_dereference
  | bad_get
  | unexpected (what : String)
  | out_of_range
  deriving DecidableEq, Repr

/-- Whether the call ends on a failed assertion, which stops the program: an `assert` of
this source tree, or the assertion `px != 0` of `boost::shared_ptr<T>::operator->` on a
null pointer. -/
def Status.isFatalAssertion : Status → Bool
  | Status.assertion_failed _ => true
  | Status.null_dereference => true
  | _ => false

/-- The exception specification `throw ()` on a function: no exception leaves it. An
exception thrown inside ends the call in `std::unexpected ()`; every other end is
passed on. -/
def Status.nothrow : Status → Status
  | Status.runtime_error what => Status.unexpected what
  | Status.bad_get => Status.unexpected "boost::bad_get"
  | s => s

/-- The part of the `Function` interface that `Problem` uses: the two sizes, fixed at
construction, and evaluation (`operator ()`). -/
structure Function (V : Type) where
  inputSize : Nat
  outputSize : Nat
  compute : List V → List V

/-- The type `Function::interval_t`, a `std::pair` (lower, upper). -/
abbrev interval_t (V : Type) := V × V

/-- The type `Function::intervals_t`. -/
abbrev intervals_t (V : Type) := List (interval_t V)

/-- The type `Function::vector_t`. -/
abbrev vector_t (V : Type) := List V

/-- The type `Problem::scales_t`. -/
abbrev scales_t (V : Type) := List V

/-- The type `Problem::startingPoint_t`, a `boost::optional<vector_t>`. -/
abbrev startingPoint_t (V : Type) := Option (vector_t V)

/-- A `boost::shared_ptr<C>`: `C` is the position of the pointee type in `CLIST`,
`get` is the pointee, `none` for a null pointer. Stored in `constraints_`, it is the
`constraint_t` variant holding alternative `C`. -/
structure shared_ptr (V : Type) where
  C : Nat
  get : Option (Function V)

/-- The type `Problem::constraints_t`. -/
abbrev constraints_t (V : Type) := List (shared_ptr V)

/-- Data members of the general `Problem<F, CLIST>`. -/
structure Problem (V : Type) where
  function_ : Function V
  startingPoint_ : startingPoint_t V
  constraints_ : constraints_t V
  bounds_ : intervals_t V
  argumentBounds_ : intervals_t V
  scales_ : scales_t V
  argumentScales_ : scales_t V

/-- Data members of the specialization `Problem<F, boost::mpl::vector<> >`. -/
structure ProblemNoConstraint (V : Type) where
  function_ : Function V
  startingPoint_ : startingPoint_t V
  argumentBounds_ : intervals_t V
  argumentScales_ : scales_t V

section Operations

variable {V : Type}

/-- The call `std::fill (v.begin (), v.end (), a)`. -/
def fill {α : Type} (v : List α) (a : α) : List α :=
  v.map (fun _ => a)

/-! ## Constructors -/

/-- The constructor `Problem<F, CLIST>::Problem (const function_t& f)`. The vectors of argument bounds
and scales are created with `f.inputSize ()` value-initialised entries, the assertion
on the output size is checked, then both are filled. `makeInfiniteInterval` stands for
`Function::makeInfiniteInterval ()`, which is declared outside this file. -/
def Problem.ctor [Zero V] [One V] (makeInfiniteInterval : interval_t V)
    (f : Function V) : Except Status (Problem V) :=
  let argumentBounds_ : intervals_t V := List.replicate f.inputSize (0, 0)
  let argumentScales_ : scales_t V := List.replicate f.inputSize 0
  if f.outputSize = 1 then
    Except.ok
      { function_ := f
        startingPoint_ := none
        constraints_ := []
        bounds_ := []
        argumentBounds_ := fill argumentBounds_ makeInfiniteInterval
        scales_ := []
        argumentScales_ := fill argumentScales_ 1 }
  else
    Except.error (Status.assertion_failed "f.outputSize () == 1")

/-- The constructor `Problem<F, boost::mpl::vector<> >::Problem (const function_t& f)`,
with the same three steps as in the general template. -/
def ProblemNoConstraint.ctor [Zero V] [One V] (makeInfiniteInterval : interval_t V)
    (f : Function V) : Except Status (ProblemNoConstraint V) :=
  let argumentBounds_ : intervals_t V := List.replicate f.inputSize (0, 0)
  let argumentScales_ : scales_t V := List.replicate f.inputSize 0
  if f.outputSize = 1 then
    Except.ok
      { function_ := f
        startingPoint_ := none
        argumentBounds_ := fill argumentBounds_ makeInfiniteInterval
        argumentScales_ := fill argumentScales_ 1 }
  else
    Except.error (Status.assertion_failed "f.outputSize () == 1")

/-! ## Accessors -/

/-- The accessor `Problem::function ()`. -/
def Problem.function (p : Problem V) : Function V := p.function_

/-- The accessor `Problem::constraints ()`. -/
def Problem.constraints (p : Problem V) : constraints_t V := p.constraints_

/-- The accessor `Problem::bounds ()`. -/
def Problem.bounds (p : Problem V) : intervals_t V := p.bounds_

/-- The accessor `Problem::scales ()`. -/
def Problem.scales (p : Problem V) : scales_t V := p.scales_

/-- The accessor `Problem::argumentBounds ()`. -/
def Problem.argumentBounds (p : Problem V) : intervals_t V := p.argumentBounds_

/-- The accessor `Problem::argumentScales ()`. -/
def Problem.argumentScales (p : Problem V) : scales_t V := p.argumentScales_

/-- The accessor `ProblemNoConstraint::function ()`. -/
def ProblemNoConstraint.function (p : ProblemNoConstraint V) : Function V := p.function_

/-- The accessor `ProblemNoConstraint::argumentBounds ()`. -/
def ProblemNoConstraint.argumentBounds (p : ProblemNoConstraint V) : intervals_t V :=
  p.argumentBounds_

/-- The accessor `ProblemNoConstraint::argumentScales ()`. -/
def ProblemNoConstraint.argumentScales (p : ProblemNoConstraint V) : scales_t V :=
  p.argumentScales_

/-! ## addConstraint -/

/-- The overload
`Problem<F, CLIST>::addConstraint (shared_ptr<C> x, interval_t b, value_type s)`.
Both size tests read through `x` before the null check; a null `x` stops there. -/
def Problem.addConstraint [LE V] [DecidableRel (fun a b : V => a ≤ b)]
    (p : Problem V) (x : shared_ptr V) (b : interval_t V) (s : V) : Status × Problem V :=
  match x.get with
  | none => (Status.null_dereference, p)
  | some c =>
    if c.inputSize ≠ p.function.inputSize then
      (Status.runtime_error "Invalid constraint (wrong input size)", p)
    else if c.outputSize ≠ 1 then
      (Status.runtime_error "Invalid constraint (output size is not equal to one)", p)
    else if x.get.isNone then
      (Status.assertion_failed "!!x.get ()", p)
    else if ¬ b.1 ≤ b.2 then
      (Status.assertion_failed "b.first <= b.second", p)
    else
      let p1 := { p with constraints_ := p.constraints_ ++ [x] }
      let p2 := { p1 with bounds_ := p1.bounds_ ++ [b] }
      let p3 := { p2 with scales_ := p2.scales_ ++ [s] }
      (Status.returned, p3)

/-- One pass of the last loop of the bound-list `addConstraint`:
`bounds_.push_back (b[i]); scales_.push_back (s);`. -/
def Problem.pushBoundScale (s : V) (p : Problem V) (bi : interval_t V) : Problem V :=
  let p1 := { p with bounds_ := p.bounds_ ++ [bi] }
  { p1 with scales_ := p1.scales_ ++ [s] }

/-- The overload
`Problem<F, CLIST>::addConstraint (shared_ptr<C> x, intervals_t b, value_type s)`.
The handle is pushed onto `constraints_` before the loop that asserts the ordering of
each bound; the bounds and scales are pushed by a second loop. -/
def Problem.addConstraint_list [LE V] [DecidableRel (fun a b : V => a ≤ b)]
    (p : Problem V) (x : shared_ptr V) (b : intervals_t V) (s : V) : Status × Problem V :=
  match x.get with
  | none => (Status.null_dereference, p)
  | some c =>
    if c.inputSize ≠ p.function.inputSize then
      (Status.runtime_error "Invalid constraint (wrong input size)", p)
    else if c.outputSize ≠ b.length then
      (Status.runtime_error "Invalid constraint (output size is not equal to one)", p)
    else if x.get.isNone then
      (Status.assertion_failed "!!x.get ()", p)
    else
      let p1 := { p with constraints_ := p.constraints_ ++ [x] }
      if ¬ b.all (fun bi => decide (bi.1 ≤ bi.2)) then
        (Status.assertion_failed "b[i].first <= b[i].second", p1)
      else
        (Status.returned, b.foldl (Problem.pushBoundScale s) p1)

/-! ## startingPoint -/

/-- The accessor `Problem<F, CLIST>::startingPoint () throw ()`, const and
non-const: a starting point that is set but has the wrong size makes the body throw
`std::runtime_error`, inside a function declared `throw ()`; otherwise the accessor
hands out `startingPoint_`. -/
def Problem.startingPoint (p : Problem V) : Except Status (startingPoint_t V) :=
  match p.startingPoint_ with
  | some v =>
    if v.length ≠ p.function.inputSize then
      Except.error
        (Status.nothrow (Status.runtime_error "Invalid starting point (wrong size)"))
    else
      Except.ok p.startingPoint_
  | none => Except.ok p.startingPoint_

/-- The statement `pb.startingPoint () = v`: the non-const accessor runs, then `v` is
assigned through the reference it returned. The assigned value is not inspected. -/
def Problem.startingPoint_assign (p : Problem V) (v : startingPoint_t V) :
    Status × Problem V :=
  match p.startingPoint with
  | Except.ok _ => (Status.returned, { p with startingPoint_ := v })
  | Except.error e => (e, p)

/-- The accessor `Problem<F, boost::mpl::vector<> >::startingPoint ()`, const and non-const: as in
the general template, with an assertion in place of the exception. -/
def ProblemNoConstraint.startingPoint (p : ProblemNoConstraint V) :
    Except Status (startingPoint_t V) :=
  match p.startingPoint_ with
  | some v =>
    if v.length ≠ p.function.inputSize then
      Except.error (Status.assertion_failed "0 && Invalid starting point (wrong size)")
    else
      Except.ok p.startingPoint_
  | none => Except.ok p.startingPoint_

/-- The statement `pb.startingPoint () = v` on the specialization. -/
def ProblemNoConstraint.startingPoint_assign (p : ProblemNoConstraint V)
    (v : startingPoint_t V) : Status × ProblemNoConstraint V :=
  match p.startingPoint with
  | Except.ok _ => (Status.returned, { p with startingPoint_ := v })
  | Except.error e => (e, p)

/-! ## Sequences of calls -/

/-- One call of `addConstraint`, with its arguments. -/
inductive Call (V : Type) where
  | single (x : shared_ptr V) (b : interval_t V) (s : V)
  | list (x : shared_ptr V) (b : intervals_t V) (s : V)

/-- The handle passed to the call. -/
def Call.handle : Call V → shared_ptr V
  | Call.single x _ _ => x
  | Call.list x _ _ => x

/-- The bounds passed to the call, one per output, in order. -/
def Call.boundsOf : Call V → intervals_t V
  | Call.single _ b _ => [b]
  | Call.list _ b _ => b

/-- The scale passed to the call. -/
def Call.scale : Call V → V
  | Call.single _ _ s => s
  | Call.list _ _ s => s

/-- Runs the call on `p`. -/
def Call.exec [LE V] [DecidableRel (fun a b : V => a ≤ b)] (p : Problem V) :
    Call V → Status × Problem V
  | Call.single x b s => p.addConstraint x b s
  | Call.list x b s => p.addConstraint_list x b s

/-- A call takes effect when it returns; a call that does not return leaves the
problem the caller continues with as it was. -/
def Problem.apply [LE V] [DecidableRel (fun a b : V => a ≤ b)] (p : Problem V)
    (c : Call V) : Problem V :=
  if (c.exec p).1 = Status.returned then (c.exec p).2 else p

/-- The problem after a sequence of calls. -/
def Problem.run [LE V] [DecidableRel (fun a b : V => a ≤ b)] (p : Problem V) :
    List (Call V) → Problem V
  | [] => p
  | c :: cs => (p.apply c).run cs

/-- The calls of the sequence that return, in order. -/
def Problem.accepted [LE V] [DecidableRel (fun a b : V => a ≤ b)] (p : Problem V) :
    List (Call V) → List (Call V)
  | [] => []
  | c :: cs =>
    if (c.exec p).1 = Status.returned then c :: (p.apply c).accepted cs
    else (p.apply c).accepted cs

/-- The sum of `outputSize ()` over a sequence of handles, read through each handle:
there is no sum when one of them is null. -/
def sumOutputSize : constraints_t V → Option Nat
  | [] => some 0
  | x :: xs =>
    match x.get, sumOutputSize xs with
    | some c, some n => some (c.outputSize + n)
    | _, _ => none

/-! ## print -/

/-- Number of bits of `std::size_t`. -/
def SIZE_BITS : Nat := 64

/-- Subtraction of two `std::size_t` values. -/
def size_sub (a b : Nat) : Nat :=
  (a % 2 ^ SIZE_BITS + 2 ^ SIZE_BITS - b % 2 ^ SIZE_BITS) % 2 ^ SIZE_BITS

/-- Conversion of an integer value to `int`. -/
def int_wrap (z : Int) : Int :=
  Int.bmod z (2 ^ 32)

/-- One operand given to `operator<<` on the output stream. The stream is the list of
the operands it was given, in order. -/
inductive Token (V : Type) where
  | text (s : String)
  | index (n : Nat)
  | count (n : Int)
  | scalar (v : V)
  | interval (b : interval_t V)
  | intervals (b : intervals_t V)
  | scales (s : scales_t V)
  | vector (x : vector_t V)
  | function (f : Function V)
  | iendl
  | incindent
  | decindent
  | incendl

/-- The loop `for (unsigned j = 0; j < outputSize; ++j) o_ << problem_.bounds ()[bi_ + j];`
of `printConstraint`, over the values of `j` still to come. -/
def printBounds (p : Problem V) (bi : Nat) :
    List Nat → List (Token V) → Status × List (Token V)
  | [], o => (Status.returned, o)
  | j :: js, o =>
    match p.bounds[bi + j]? with
    | none => (Status.out_of_range, o)
    | some b => printBounds p bi js (o ++ [Token.interval b])

/-- The loop
`for (unsigned j = 0; j < outputSize; ++j) o_ << problem_.scales ()[bi_ + j] << "  ";`
of `printConstraint`, over the values of `j` still to come. -/
def printScales (p : Problem V) (bi : Nat) :
    List Nat → List (Token V) → Status × List (Token V)
  | [], o => (Status.returned, o)
  | j :: js, o =>
    match p.scales[bi + j]? with
    | none => (Status.out_of_range, o)
    | some s => printScales p bi js (o ++ [Token.scalar s, Token.text "  "])

/-- The test of the last loop of `printConstraint` on the entry `xj` of the initial
value and the bound `b` it is compared with. -/
def notSatisfied [LT V] [DecidableRel (fun a b : V => a < b)] (b : interval_t V)
    (xj : V) : Bool :=
  decide (xj < b.1) || decide (xj > b.2)

/-- The loop `for (unsigned j = 0; j < x.size (); ++j)` of `printConstraint`, over the
entries `x[j]` still to come: each is compared with `problem_.bounds ()[bi_]`. -/
def printUnsatisfied [LT V] [DecidableRel (fun a b : V => a < b)] (p : Problem V)
    (bi : Nat) : List V → List (Token V) → Status × List (Token V)
  | [], o => (Status.returned, o)
  | xj :: xs, o =>
    match p.bounds[bi]? with
    | none => (Status.out_of_range, o)
    | some b =>
      if notSatisfied b xj then
        printUnsatisfied p bi xs (o ++ [Token.text " (constraint not satisfied)"])
      else
        printUnsatisfied p bi xs o

/-- The visitor `detail::printConstraint<P>::operator () (const U& constraint)`, built
with `(o, problem, ci, bi)`. `U` is the alternative `constraint.C` held by the visited
entry. The accessor `problem_.startingPoint ()` is called twice with the same result;
the model calls it once. -/
def printConstraint [LT V] [DecidableRel (fun a b : V => a < b)] (p : Problem V)
    (ci bi : Nat) (constraint : shared_ptr V) (o : List (Token V)) :
    Status × List (Token V) :=
  if ¬ size_sub p.constraints.length bi > 0 then
    (Status.assertion_failed "problem_.constraints ().size () - bi_ > 0", o)
  else
    match constraint.get with
    | none => (Status.null_dereference, o)
    | some c =>
      let o1 := o ++ [Token.iendl, Token.incindent, Token.text "Constraint ",
        Token.index ci, Token.incindent, Token.iendl, Token.function c, Token.iendl,
        Token.text "Bounds: "]
      match printBounds p bi (List.range c.outputSize) o1 with
      | (Status.returned, o2) =>
        match printScales p bi (List.range c.outputSize)
            (o2 ++ [Token.iendl, Token.text "Scales: "]) with
        | (Status.returned, o3) =>
          let o4 := o3 ++ [Token.iendl]
          match p.startingPoint with
          | Except.error e => (e, o4)
          | Except.ok none => (Status.returned, o4 ++ [Token.decindent, Token.decindent])
          | Except.ok (some sp) =>
            match p.constraints[ci]? with
            | none => (Status.out_of_range, o4)
            | some entry =>
              if entry.C ≠ constraint.C then (Status.bad_get, o4)
              else
                match entry.get with
                | none => (Status.null_dereference, o4)
                | some g =>
                  let x := g.compute sp
                  match printUnsatisfied p bi x
                      (o4 ++ [Token.text "Initial value: ", Token.vector x]) with
                  | (Status.returned, o5) =>
                    (Status.returned,
                      o5 ++ [Token.iendl, Token.decindent, Token.decindent])
                  | r => r
        | r => r
      | r => r

/-- The first loop of `Problem<F, CLIST>::print`, over the entries still to come:
`g = get<shared_ptr<F> > (c); numConstraints += g->outputSize ();` with
`int numConstraints`. `F` is the tag of the type `F` in the numbering of
`shared_ptr.C`. -/
def countConstraints (F : Nat) : constraints_t V → Int → Status × Int
  | [], n => (Status.returned, n)
  | c :: cs, n =>
    if c.C ≠ F then (Status.bad_get, n)
    else
      match c.get with
      | none => (Status.null_dereference, n)
      | some g => countConstraints F cs (int_wrap (n + g.outputSize))

/-- The second loop of `Problem<F, CLIST>::print`, over the entries still to come,
with the current values of `ci` and `bi`: the visitor is applied to
`constraints ()[ci]`, then `g = get<shared_ptr<F> > (c); bi += g->outputSize ();`.
The visitor is a parameter; `print` passes `printConstraint`. -/
def visitConstraints {σ : Type} (F : Nat)
    (visit : Nat → Nat → shared_ptr V → σ → Status × σ) :
    constraints_t V → Nat → Nat → σ → Status × σ
  | [], _, _, o => (Status.returned, o)
  | c :: cs, ci, bi, o =>
    match visit ci bi c o with
    | (Status.returned, o1) =>
      if c.C ≠ F then (Status.bad_get, o1)
      else
        match c.get with
        | none => (Status.null_dereference, o1)
        | some g => visitConstraints F visit cs (ci + 1) (bi + g.outputSize) o1
    | r => r

/-- The member `Problem<F, CLIST>::print (std::ostream& o) const throw ()`. `F` is the
tag of the objective type and `infinity` stands for `Function::infinity ()`, declared
outside this file. The result is how the call ends and what was written by then. -/
def Problem.print [LT V] [DecidableRel (fun a b : V => a < b)] (F : Nat) (infinity : V)
    (p : Problem V) : Status × List (Token V) :=
  let o0 := [Token.text "Problem:", Token.incendl, Token.function p.function,
    Token.iendl, Token.text "Argument\x27s bounds: ", Token.intervals p.argumentBounds,
    Token.iendl, Token.text "Argument\x27s scales: ", Token.scales p.argumentScales,
    Token.iendl]
  let counted : Status × List (Token V) :=
    if p.constraints.isEmpty then
      (Status.returned, o0 ++ [Token.text "No constraints."])
    else
      match countConstraints F p.constraints 0 with
      | (Status.returned, numConstraints) =>
        (Status.returned,
          o0 ++ [Token.text "Number of constraints: ", Token.count numConstraints,
            Token.iendl])
      | (e, _) => (e, o0)
  match counted with
  | (Status.returned, o1) =>
    match visitConstraints F (printConstraint p) p.constraints 0 0 o1 with
    | (Status.returned, o2) =>
      let o3 :=
        match p.startingPoint_ with
        | some sp =>
          o2 ++ [Token.iendl, Token.text "Starting point: ", Token.vector sp,
            Token.iendl, Token.text "Starting value: ",
            Token.vector (p.function.compute sp)]
        | none => o2 ++ [Token.iendl, Token.text "No starting point."]
      (Status.returned,
        o3 ++ [Token.iendl, Token.text "Infinity value (for all functions): ",
          Token.scalar infinity, Token.decindent])
    | (e, o2) => (Status.nothrow e, o2)
  | (e, o1) => (Status.nothrow e, o1)

/-- The visitor that only records the pair `(ci, bi)` it was built with. -/
def recordVisit (ci bi : Nat) (_c : shared_ptr V) (log : List (Nat × Nat)) :
    Status × List (Nat × Nat) :=
  (Status.returned, log ++ [(ci, bi)])

end Operations

/-! ## GenericNumericLinearFunction

The class is declared in `include/roboptim/core/numeric-linear-function.hh`; the bodies
of its constructor and of its three `impl_` members are in a file that is not part of
this source tree. -/

section Affine

variable {V : Type}

/-- The type `matrix_t`, a dense matrix: its two dimensions and its coefficients,
`coeff i j` being the entry of row `i < rows` and column `j < cols`. -/
structure matrix_t (V : Type) where
  rows : Nat
  cols : Nat
  coeff : Nat → Nat → V

/-- Row `i` of a matrix, `A.row (i)`, as a vector of `cols` entries. -/
def matrix_t.row (A : matrix_t V) (i : Nat) : vector_t V :=
  (List.range A.cols).map (A.coeff i)

/-- The matrix as a `Matrix` of the library, indexed by its rows and columns. -/
def matrix_t.toMatrix (A : matrix_t V) : Matrix (Fin A.rows) (Fin A.cols) V :=
  Matrix.of (fun i j => A.coeff i.val j.val)

/-- Data members of `GenericNumericLinearFunction<T>`, `a_` and `b_`, and the two sizes
held by its base class `Function`. -/
structure GenericNumericLinearFunction (V : Type) where
  inputSize : Nat
  outputSize : Nat
  a_ : matrix_t V
  b_ : vector_t V

/-- Modelled from the spec: the body of the constructor
`GenericNumericLinearFunction (A, b, name)`, which is not in this source tree. It
"stores `A`, `b`; `inputSize = A.cols()`, `outputSize = A.rows()`; fails if
`b.size() != A.rows()`". -/
def GenericNumericLinearFunction.ctor (A : matrix_t V) (b : vector_t V) :
    Option (GenericNumericLinearFunction V) :=
  if b.length ≠ A.rows then none
  else some { inputSize := A.cols, outputSize := A.rows, a_ := A, b_ := b }

/-- The accessor `GenericNumericLinearFunction::A ()`. -/
def GenericNumericLinearFunction.A (f : GenericNumericLinearFunction V) : matrix_t V :=
  f.a_

/-- The accessor `GenericNumericLinearFunction::b ()`. -/
def GenericNumericLinearFunction.b (f : GenericNumericLinearFunction V) : vector_t V :=
  f.b_

/-- Modelled from the spec: the product of a row with the argument in
"`compute(x) = A x + b`", the sum of the products of their entries. -/
def dot [Zero V] [Add V] [Mul V] (u v : vector_t V) : V :=
  (List.zipWith (fun a b => a * b) u v).sum

/-- Modelled from the spec: the body of `impl_compute`, which is not in this source
tree: "`compute(x) = A x + b`", computed row by row. -/
def GenericNumericLinearFunction.impl_compute [Zero V] [Add V] [Mul V]
    (f : GenericNumericLinearFunction V) (x : vector_t V) : vector_t V :=
  List.zipWith (fun a b => a + b)
    ((List.range f.a_.rows).map (fun i => dot (f.a_.row i) x)) f.b_

/-- Modelled from the spec: the body of `impl_gradient`, which is not in this source
tree: "`gradient(x, i) = A.row(i)` — independent of `x`". -/
def GenericNumericLinearFunction.impl_gradient (f : GenericNumericLinearFunction V)
    (_x : vector_t V) (i : Nat) : vector_t V :=
  f.a_.row i

/-- Modelled from the spec: the body of `impl_jacobian`, which is not in this source
tree: "`jacobian(x) = A` — same, independent of `x`". -/
def GenericNumericLinearFunction.impl_jacobian (f : GenericNumericLinearFunction V)
    (_x : vector_t V) : matrix_t V :=
  f.a_

end Affine

/-! ## Copy constructors -/

section Copy

variable {V : Type}

/-- The algorithm `std::copy (first, last, result)`: the entries of the source range are
written one after the other through `result`. The second argument is what the
destination vector holds from `result` on; once it is used up, the next write is past
the end of the vector. -/
def std_copy {α : Type} : List α → List α → Status × List α
  | [], dest => (Status.returned, dest)
  | _ :: _, [] => (Status.out_of_range, [])
  | a :: src, _ :: dest =>
    match std_copy src dest with
    | (st, r) => (st, a :: r)

/-- The copy constructor `Problem<F, CLIST>::Problem (const Problem<F, CLIST>& pb)`:
every member is built from the member of `pb`. -/
def Problem.ctor_copy (pb : Problem V) : Problem V :=
  { function_ := pb.function_
    startingPoint_ := pb.startingPoint_
    constraints_ := pb.constraints_
    bounds_ := pb.bounds_
    argumentBounds_ := pb.argumentBounds_
    scales_ := pb.scales_
    argumentScales_ := pb.argumentScales_ }

/-- The converting constructor
`Problem<F, CLIST>::Problem (const Problem<F_, CLIST_>& pb)`: `constraints_` is built
empty, the other members are built from the members of `pb`, and the body runs
`std::copy (pb.constraints_.begin (), pb.constraints_.end (), constraints_.begin ())`.
The result is how the constructor ends and the object at that point. -/
def Problem.ctor_convert (pb : Problem V) : Status × Problem V :=
  let q : Problem V :=
    { function_ := pb.function_
      startingPoint_ := pb.startingPoint_
      constraints_ := []
      bounds_ := pb.bounds_
      argumentBounds_ := pb.argumentBounds_
      scales_ := pb.scales_
      argumentScales_ := pb.argumentScales_ }
  match std_copy pb.constraints_ q.constraints_ with
  | (st, cs) => (st, { q with constraints_ := cs })

end Copy

/-! ## plot_jac

The function is defined in `src/visualization/gnuplot-differentiable-function.cc`. -/

section Gnuplot

variable {V : Type}

/-- The part of `DifferentiableFunction` that `plot_jac` uses: the name of the function
and its jacobian at an argument. -/
structure DifferentiableFunction (V : Type) where
  getName : String
  jacobian : vector_t V → matrix_t V

/-- The statements of `plot_jac` before the two loops: the directives of the script.
`lexical_cast` stands for `boost::lexical_cast<std::string> ((float) n)`. -/
def plot_jac_directives (lexical_cast : Nat → String) (name : String)
    (cols rows : Nat) : String :=
  let str := ""
  let str := str ++ ("set title \x27jacobian(" ++ name ++ ")\x27\n")
  let str := str ++ "set palette defined(0 \x22white\x22,1 \x22blue\x22)\n"
  let str := str ++ "set grid front\n"
  let str := str ++ ("set xrange [0:" ++ lexical_cast cols ++ "]\n")
  let str := str ++ ("set yrange [0:" ++ lexical_cast rows ++ "] reverse\n")
  let str := str ++ "set size ratio -1\n"
  let str := str ++ "unset colorbox\n"
  let str := str ++ "plot \x27-\x27 using ($1+0.5):($2+0.5):($3 == 0 ? 0 : 1) "
  let str := str ++ "matrix with image notitle\n"
  str

/-- The inner loop of `plot_jac` for the row `cstr_id`: each entry is formatted and
appended, followed by a space when `out_id < jac.cols () - 1` and by a newline
otherwise. `format` stands for `boost::format ("%1.2f")` applied to the entry and
`normalize` for the function of that name, both declared outside this file. -/
def plot_jac_row (format : V → String) (normalize : V → V) (jac : matrix_t V)
    (cstr_id : Nat) (str : String) : String :=
  (List.range jac.cols).foldl
    (fun str out_id =>
      let str := str ++ format (normalize (jac.coeff cstr_id out_id))
      if out_id < jac.cols - 1 then str ++ " " else str ++ "\n")
    str

/-- The function `plot_jac (const DifferentiableFunction& f, const argument_t& arg)`;
the result is the string given to `Command`. -/
def plot_jac (lexical_cast : Nat → String) (format : V → String) (normalize : V → V)
    (f : DifferentiableFunction V) (arg : vector_t V) : String :=
  let jac := f.jacobian arg
  let str := plot_jac_directives lexical_cast f.getName jac.cols jac.rows
  let str := (List.range jac.rows).foldl
    (fun str cstr_id => plot_jac_row format normalize jac cstr_id str) str
  str ++ "e\n"

/-- Specification: the entries of one line, separated by single spaces, with no space
after the last one. -/
def separatedBySpaces : List String → String
  | [] => ""
  | [a] => a
  | a :: b :: rest => a ++ " " ++ separatedBySpaces (b :: rest)

/-- Specification: line `i` of the data block, the formatted entries of row `i` in
column order separated by single spaces, ended by a newline. -/
def dataLine (format : V → String) (normalize : V → V) (jac : matrix_t V) (i : Nat) :
    String :=
  separatedBySpaces ((jac.row i).map (fun x => format (normalize x))) ++ "\n"

/-- Specification: lines laid end to end. -/
def concatLines : List String → String
  | [] => ""
  | a :: rest => a ++ concatLines rest

/-- Specification: the data block, one line per row, in row order. -/
def dataBlock (format : V → String) (normalize : V → V) (jac : matrix_t V) : String :=
  concatLines ((List.range jac.rows).map (dataLine format normalize jac))

end Gnuplot

/-! ## Concrete data used in the examples -/

/-- The two by two identity matrix. -/
def identity2 : matrix_t Int :=
  { rows := 2, cols := 2, coeff := fun i j => if i = j then 1 else 0 }

/-- The affine function built from `identity2` and the zero vector. -/
def affineIdentity2 : GenericNumericLinearFunction Int :=
  { inputSize := 2, outputSize := 2, a_ := identity2, b_ := [0, 0] }

/-- A matrix with two rows and three columns, `[[1, 2, 3], [4, 5, 6]]`. -/
def matrix23 : matrix_t Int :=
  { rows := 2, cols := 3, coeff := fun i j => 3 * i + j + 1 }

/-- The affine function built from `matrix23` and the vector `[10, 20]`. -/
def affine23 : GenericNumericLinearFunction Int :=
  { inputSize := 3, outputSize := 2, a_ := matrix23, b_ := [10, 20] }

/-- A differentiable function named `f` whose jacobian is `matrix23` everywhere. -/
def plotted23 : DifferentiableFunction Int :=
  { getName := "f", jacobian := fun _ => matrix23 }

/-- A stand-in for the formatting of an entry: `0.00` for zero and `1.00` otherwise. -/
def formatBinary (z : Int) : String :=
  if z = 0 then "0.00" else "1.00"

/-- A stand-in for `lexical_cast` on the sizes used in the examples. -/
def showSize (n : Nat) : String :=
  if n = 2 then "2" else if n = 3 then "3" else "n"

/-- An objective with two inputs and one output. -/
def objective2 : Function Int :=
  { inputSize := 2, outputSize := 1, compute := fun _ => [0] }

/-- A constraint function with `n` inputs and `m` outputs. -/
def constraintFn (n m : Nat) : Function Int :=
  { inputSize := n, outputSize := m, compute := fun _ => List.replicate m 0 }

/-- A non-null handle to `constraintFn n m`. -/
def handle (n m : Nat) : shared_ptr Int :=
  { C := 0, get := some (constraintFn n m) }

/-- An interval standing for `Function::makeInfiniteInterval ()` in the examples. -/
def unbounded : interval_t Int := (-1000000, 1000000)

/-- The value of a freshly constructed problem on `objective2`. -/
def fresh2 : Problem Int :=
  { function_ := objective2
    startingPoint_ := none
    constraints_ := []
    bounds_ := []
    argumentBounds_ := [unbounded, unbounded]
    scales_ := []
    argumentScales_ := [1, 1] }

/-- Four calls on `fresh2`: a valid one-output constraint, a constraint with the wrong
input size, a valid three-output constraint, and a one-output constraint with an
inverted bound. -/
def exampleCalls : List (Call Int) :=
  [Call.single (handle 2 1) (0, 10) 1,
   Call.single (handle 3 1) (0, 10) 1,
   Call.list (handle 2 3) [(0, 1), (2, 3), (4, 5)] 2,
   Call.single (handle 2 1) (10, 0) 1]

/-- The value of a freshly constructed zero-constraint problem on `objective2`. -/
def freshNoConstraint2 : ProblemNoConstraint Int :=
  { function_ := objective2
    startingPoint_ := none
    argumentBounds_ := [unbounded, unbounded]
    argumentScales_ := [1, 1] }

/-- The problem `fresh2` after `pb.startingPoint () = v` with the one-entry vector
`v = [7]`, on an objective with two inputs. -/
def missized2 : Problem Int :=
  { fresh2 with startingPoint_ := some [7] }

/-- The problem `fresh2` with the two-entry starting point `[5, 6]`. -/
def started2 : Problem Int :=
  { fresh2 with startingPoint_ := some [5, 6] }

/-- The zero-constraint problem `freshNoConstraint2` after `pb.startingPoint () = v`
with the one-entry vector `v = [7]`. -/
def missizedNoConstraint2 : ProblemNoConstraint Int :=
  { freshNoConstraint2 with startingPoint_ := some [7] }

/-- A non-null handle to `constraintFn n m` held as alternative `k`. -/
def handleOfKind (k n m : Nat) : shared_ptr Int :=
  { C := k, get := some (constraintFn n m) }

/-- A null handle. -/
def nullHandle : shared_ptr Int :=
  { C := 0, get := none }

/-- The problem `fresh2` after a one-output constraint held as alternative 1 was
added, the objective type having tag 0. -/
def otherKind2 : Problem Int :=
  fresh2.run [Call.single (handleOfKind 1 2 1) (0, 10) 1]

/-- The problem `fresh2` after two one-output constraints were added, the first held
as alternative 0 and the second as alternative 1. -/
def mixedKinds2 : Problem Int :=
  fresh2.run [Call.single (handle 2 1) (0, 10) 1, Call.single (handleOfKind 1 2 1) (0, 10) 1]

/-- The problem `fresh2` after the four example calls. -/
def accepted2 : Problem Int :=
  fresh2.run exampleCalls

/-- The problem `accepted2` with the starting point `[0, 0]`. -/
def acceptedStarted2 : Problem Int :=
  (accepted2.startingPoint_assign (some [0, 0])).2

/-- A function with two inputs and two outputs whose value is `[0, 5]` everywhere. -/
def pairFn : Function Int :=
  { inputSize := 2, outputSize := 2, compute := fun _ => [0, 5] }

/-- A non-null handle to `pairFn`, held as alternative 0. -/
def pairHandle : shared_ptr Int :=
  { C := 0, get := some pairFn }

/-- The problem `fresh2` after `pairHandle` was added with the bounds (0, 1) for its
first output and (5, 6) for its second, and the starting point `[0, 0]` was set. -/
def pairProblem : Problem Int :=
  ((fresh2.run [Call.list pairHandle [(0, 1), (5, 6)] 1]).startingPoint_assign
    (some [0, 0])).2

/-- The problem `fresh2` after a two-output constraint and then a one-output
constraint were added, both held as alternative 0. -/
def twoThenOne : Problem Int :=
  fresh2.run [Call.list (handle 2 2) [(0, 1), (0, 1)] 1, Call.single (handle 2 1) (0, 1) 1]

end roboptim

namespace roboptim

/-! ## Lemmas on one call -/

/-- The second loop of the bound-list overload appends the whole list of bounds and as
many copies of the scale. -/
theorem foldl_pushBoundScale {V : Type} (s : V) (b : intervals_t V) (p : Problem V) :
    b.foldl (Problem.pushBoundScale s) p =
      { p with bounds_ := p.bounds_ ++ b
               scales_ := p.scales_ ++ List.replicate b.length s } := by
  induction b generalizing p with
  | nil => simp
  | cons a t ih =>
    simp [List.foldl, ih, Problem.pushBoundScale, List.replicate_succ]

/-- Appending a non-null handle adds its output size to the sum. -/
theorem sumOutputSize_append_singleton {V : Type} (l : constraints_t V) (x : shared_ptr V)
    (c : Function V) (hx : x.get = some c) :
    sumOutputSize (l ++ [x]) = (sumOutputSize l).map (fun n => n + c.outputSize) := by
  induction l with
  | nil => simp [sumOutputSize, hx]
  | cons a t ih =>
    rw [List.cons_append]
    simp only [sumOutputSize]
    rw [ih]
    cases a.get with
    | none => simp
    | some d =>
      cases sumOutputSize t with
      | none => simp
      | some n => simp [Nat.add_assoc]

/-- The constructor, when it returns. -/
theorem ctor_ok {V : Type} [Zero V] [One V] (inf : interval_t V) (f : Function V) (p : Problem V)
    (h : Problem.ctor inf f = Except.ok p) :
    f.outputSize = 1 ∧
      p = { function_ := f
            startingPoint_ := none
            constraints_ := []
            bounds_ := []
            argumentBounds_ := List.replicate f.inputSize inf
            scales_ := []
            argumentScales_ := List.replicate f.inputSize 1 } := by
  unfold Problem.ctor at h
  by_cases hf : f.outputSize = 1
  · simp only [hf, if_true, Except.ok.injEq] at h
    refine ⟨hf, ?_⟩
    rw [← h]
    simp [fill]
  · simp [hf] at h

/-- The general constructor on a scalar objective. -/
theorem ctor_scalar {V : Type} [Zero V] [One V] (inf : interval_t V) (f : Function V)
    (hf : f.outputSize = 1) :
    Problem.ctor inf f =
      Except.ok
        { function_ := f
          startingPoint_ := none
          constraints_ := []
          bounds_ := []
          argumentBounds_ := List.replicate f.inputSize inf
          scales_ := []
          argumentScales_ := List.replicate f.inputSize 1 } := by
  simp [Problem.ctor, hf, fill]

/-- The zero-constraint constructor on a scalar objective. -/
theorem ctor_noConstraint_scalar {V : Type} [Zero V] [One V] (inf : interval_t V)
    (f : Function V) (hf : f.outputSize = 1) :
    ProblemNoConstraint.ctor inf f =
      Except.ok
        { function_ := f
          startingPoint_ := none
          argumentBounds_ := List.replicate f.inputSize inf
          argumentScales_ := List.replicate f.inputSize 1 } := by
  simp [ProblemNoConstraint.ctor, hf, fill]

/-- In a flattened list of lists, entry `j` of block `k` sits at the sum of the lengths
of the blocks before it, plus `j`. -/
theorem getElem?_flatten_offset {α : Type} (L : List (List α)) (k : Nat) (l : List α)
    (hk : L[k]? = some l) (j : Nat) (hj : j < l.length) :
    L.flatten[((L.take k).map List.length).sum + j]? = l[j]? := by
  induction L generalizing k with
  | nil => simp at hk
  | cons a t ih =>
    cases k with
    | zero =>
      simp only [List.getElem?_cons_zero, Option.some.injEq] at hk
      subst hk
      simp [List.getElem?_append_left hj]
    | succ k =>
      simp only [List.getElem?_cons_succ] at hk
      have hle : a.length ≤ a.length + ((List.map List.length (List.take k t)).sum + j) :=
        Nat.le_add_right _ _
      simp only [List.take_succ_cons, List.map_cons, List.sum_cons, List.flatten_cons,
        Nat.add_assoc]
      rw [List.getElem?_append_right hle, Nat.add_sub_cancel_left]
      exact ih k hk

/-- The sum of output sizes over the handles of calls that each carry a non-null
handle with as many outputs as bounds. -/
theorem sumOutputSize_map_handle {V : Type} (l : List (Call V))
    (h : ∀ c ∈ l, ∃ g, c.handle.get = some g ∧ g.outputSize = c.boundsOf.length) :
    sumOutputSize (l.map Call.handle) =
      some ((l.map (fun c => c.boundsOf.length)).sum) := by
  induction l with
  | nil => rfl
  | cons a t ih =>
    obtain ⟨g, hg, hout⟩ := h a (List.mem_cons_self a t)
    have ht := ih (fun c hc => h c (List.mem_cons_of_mem a hc))
    simp only [List.map_cons, sumOutputSize, hg, ht, hout, List.sum_cons]

section Lemmas

variable {V : Type} [LE V] [DecidableRel (fun a b : V => a ≤ b)]

/-- The single-bound overload on arguments that pass every check. -/
theorem addConstraint_valid (p : Problem V) (x : shared_ptr V) (c : Function V)
    (b : interval_t V) (s : V) (hx : x.get = some c)
    (hin : c.inputSize = p.function.inputSize) (hout : c.outputSize = 1)
    (hb : b.1 ≤ b.2) :
    p.addConstraint x b s =
      (Status.returned,
        { p with constraints_ := p.constraints_ ++ [x]
                 bounds_ := p.bounds_ ++ [b]
                 scales_ := p.scales_ ++ [s] }) := by
  simp [Problem.addConstraint, hx, hin, hout, hb]

/-- The bound-list overload on arguments that pass every check. -/
theorem addConstraint_list_valid (p : Problem V) (x : shared_ptr V) (c : Function V)
    (b : intervals_t V) (s : V) (hx : x.get = some c)
    (hin : c.inputSize = p.function.inputSize) (hout : c.outputSize = b.length)
    (hb : ∀ bi ∈ b, bi.1 ≤ bi.2) :
    p.addConstraint_list x b s =
      (Status.returned,
        { p with constraints_ := p.constraints_ ++ [x]
                 bounds_ := p.bounds_ ++ b
                 scales_ := p.scales_ ++ List.replicate b.length s }) := by
  have hall : b.all (fun bi => decide (bi.1 ≤ bi.2)) = true := by
    simpa [List.all_eq_true] using hb
  simp [Problem.addConstraint_list, hx, hin, hout, hall, foldl_pushBoundScale]

/-- What a returning call of the single-bound overload was given and did. -/
theorem addConstraint_returned (p : Problem V) (x : shared_ptr V) (b : interval_t V)
    (s : V) (h : (p.addConstraint x b s).1 = Status.returned) :
    ∃ c, x.get = some c ∧ c.inputSize = p.function.inputSize ∧ c.outputSize = 1 ∧
      b.1 ≤ b.2 ∧
      (p.addConstraint x b s).2 =
        { p with constraints_ := p.constraints_ ++ [x]
                 bounds_ := p.bounds_ ++ [b]
                 scales_ := p.scales_ ++ [s] } := by
  cases hx : x.get with
  | none => simp [Problem.addConstraint, hx] at h
  | some c =>
    by_cases hin : c.inputSize = p.function.inputSize
    · by_cases hout : c.outputSize = 1
      · by_cases hb : b.1 ≤ b.2
        · exact ⟨c, rfl, hin, hout, hb, by rw [addConstraint_valid p x c b s hx hin hout hb]⟩
        · simp [Problem.addConstraint, hx, hin, hout, hb] at h
      · simp [Problem.addConstraint, hx, hin, hout] at h
    · simp [Problem.addConstraint, hx, hin] at h

/-- What a returning call of the bound-list overload was given and did. -/
theorem addConstraint_list_returned (p : Problem V) (x : shared_ptr V)
    (b : intervals_t V) (s : V) (h : (p.addConstraint_list x b s).1 = Status.returned) :
    ∃ c, x.get = some c ∧ c.inputSize = p.function.inputSize ∧ c.outputSize = b.length ∧
      (∀ bi ∈ b, bi.1 ≤ bi.2) ∧
      (p.addConstraint_list x b s).2 =
        { p with constraints_ := p.constraints_ ++ [x]
                 bounds_ := p.bounds_ ++ b
                 scales_ := p.scales_ ++ List.replicate b.length s } := by
  cases hx : x.get with
  | none => simp [Problem.addConstraint_list, hx] at h
  | some c =>
    by_cases hin : c.inputSize = p.function.inputSize
    · by_cases hout : c.outputSize = b.length
      · by_cases hb : ∀ bi ∈ b, bi.1 ≤ bi.2
        · exact ⟨c, rfl, hin, hout, hb,
            by rw [addConstraint_list_valid p x c b s hx hin hout hb]⟩
        · have hall : ¬ b.all (fun bi => decide (bi.1 ≤ bi.2)) = true := by
            simpa [List.all_eq_true] using hb
          simp [Problem.addConstraint_list, hx, hin, hout, hall] at h
      · simp [Problem.addConstraint_list, hx, hin, hout] at h
    · simp [Problem.addConstraint_list, hx, hin] at h

/-- What a returning call was given and did, for either overload. -/
theorem exec_returned (p : Problem V) (c : Call V)
    (h : (c.exec p).1 = Status.returned) :
    ∃ g, c.handle.get = some g ∧ g.inputSize = p.function.inputSize ∧
      g.outputSize = c.boundsOf.length ∧ (∀ bi ∈ c.boundsOf, bi.1 ≤ bi.2) ∧
      (c.exec p).2 =
        { p with constraints_ := p.constraints_ ++ [c.handle]
                 bounds_ := p.bounds_ ++ c.boundsOf
                 scales_ := p.scales_ ++ List.replicate c.boundsOf.length c.scale } := by
  cases c with
  | single x b s =>
    obtain ⟨g, hx, hin, hout, hb, hres⟩ := addConstraint_returned p x b s h
    exact ⟨g, hx, hin, by simpa [Call.boundsOf] using hout,
      by simpa [Call.boundsOf] using hb, by simpa [Call.exec, Call.boundsOf, Call.handle,
        Call.scale] using hres⟩
  | list x b s =>
    obtain ⟨g, hx, hin, hout, hb, hres⟩ := addConstraint_list_returned p x b s h
    exact ⟨g, hx, hin, hout, hb, hres⟩

/-- A call that takes effect keeps the size invariant. -/
theorem apply_sizes (p : Problem V) (c : Call V)
    (h1 : p.bounds.length = p.scales.length)
    (h2 : sumOutputSize p.constraints = some p.bounds.length) :
    (p.apply c).bounds.length = (p.apply c).scales.length ∧
      sumOutputSize (p.apply c).constraints = some (p.apply c).bounds.length := by
  unfold Problem.apply
  by_cases h : (c.exec p).1 = Status.returned
  · obtain ⟨g, hx, _, hout, _, hres⟩ := exec_returned p c h
    simp only [Problem.bounds, Problem.scales, Problem.constraints] at h1 h2 ⊢
    rw [if_pos h, hres]
    refine ⟨by simp [h1], ?_⟩
    simp [sumOutputSize_append_singleton _ _ g hx, h2, hout]
  · rw [if_neg h]
    exact ⟨h1, h2⟩

/-- The size invariant is kept along any sequence of calls. -/
theorem run_sizes (cs : List (Call V)) (p : Problem V)
    (h1 : p.bounds.length = p.scales.length)
    (h2 : sumOutputSize p.constraints = some p.bounds.length) :
    (p.run cs).bounds.length = (p.run cs).scales.length ∧
      sumOutputSize (p.run cs).constraints = some (p.run cs).bounds.length := by
  induction cs generalizing p with
  | nil => exact ⟨h1, h2⟩
  | cons c cs ih =>
    obtain ⟨k1, k2⟩ := apply_sizes p c h1 h2
    exact ih (p.apply c) k1 k2

/-- The problem after a sequence of calls: the accepted calls have appended their
handles, their bounds and their scales, in order. -/
theorem run_accepted (cs : List (Call V)) (p : Problem V) :
    p.run cs =
      { p with
        constraints_ := p.constraints_ ++ (p.accepted cs).map Call.handle
        bounds_ := p.bounds_ ++ ((p.accepted cs).map Call.boundsOf).flatten
        scales_ := p.scales_ ++
          ((p.accepted cs).map
            (fun c => List.replicate c.boundsOf.length c.scale)).flatten } := by
  induction cs generalizing p with
  | nil => simp [Problem.run, Problem.accepted]
  | cons c cs ih =>
    by_cases h : (c.exec p).1 = Status.returned
    · obtain ⟨g, _, _, _, _, hres⟩ := exec_returned p c h
      have hap : p.apply c = (c.exec p).2 := by simp [Problem.apply, h]
      simp only [Problem.run, Problem.accepted, h, if_true]
      rw [ih (p.apply c), hap, hres]
      simp
    · have hap : p.apply c = p := by simp [Problem.apply, h]
      simp only [Problem.run, Problem.accepted, h, if_false]
      rw [ih (p.apply c), hap]

/-- Every accepted call carries a non-null handle with as many outputs as bounds. -/
theorem accepted_outputSize (cs : List (Call V)) (p : Problem V) :
    ∀ c ∈ p.accepted cs, ∃ g, c.handle.get = some g ∧ g.outputSize = c.boundsOf.length := by
  induction cs generalizing p with
  | nil => simp [Problem.accepted]
  | cons a cs ih =>
    intro c hc
    by_cases h : (a.exec p).1 = Status.returned
    · simp only [Problem.accepted, h, if_true, List.mem_cons] at hc
      rcases hc with rfl | hc
      · obtain ⟨g, hg, _, hout, _, _⟩ := exec_returned p c h
        exact ⟨g, hg, hout⟩
      · exact ih _ c hc
    · simp only [Problem.accepted, h, if_false] at hc
      exact ih _ c hc

end Lemmas

/-! ## Claims -/

section Claims

variable {V : Type} [LE V] [DecidableRel (fun a b : V => a ≤ b)]

/-- C1: a problem made by the constructor and then changed by any finite sequence of
`addConstraint` calls of either overload, of which only the returning ones take
effect, has `bounds ().size () == scales ().size ()`, and both equal the sum of
`outputSize ()` over the handles in `constraints ()`. -/
theorem C1_size_invariant [Zero V] [One V] (inf : interval_t V) (f : Function V)
    (p : Problem V) (h : Problem.ctor inf f = Except.ok p) (cs : List (Call V)) :
    (p.run cs).bounds.length = (p.run cs).scales.length ∧
      sumOutputSize (p.run cs).constraints = some (p.run cs).bounds.length := by
  obtain ⟨_, hp⟩ := ctor_ok inf f p h
  apply run_sizes
  · rw [hp]; rfl
  · rw [hp]; rfl

/-- C1 on a run of four calls from a fresh problem: two are accepted (one and three
outputs), one has the wrong input size and one has an inverted bound. -/
theorem C1_size_invariant_witness :
    Problem.ctor unbounded objective2 = Except.ok fresh2 ∧
      (fresh2.run exampleCalls).bounds.length = (fresh2.run exampleCalls).scales.length ∧
      sumOutputSize (fresh2.run exampleCalls).constraints =
        some (fresh2.run exampleCalls).bounds.length :=
  ⟨rfl, C1_size_invariant unbounded objective2 fresh2 rfl exampleCalls⟩

/-- C2: when the handle's `inputSize ()` differs from `function ().inputSize ()`, both
overloads throw the recoverable error and the problem at that point is the problem
before the call, so `constraints ()`, `bounds ()` and `scales ()` are as they were,
whatever the bound, bound list and scale. -/
theorem C2_input_size_mismatch_rejected (p : Problem V) (x : shared_ptr V)
    (c : Function V) (hx : x.get = some c) (hin : c.inputSize ≠ p.function.inputSize)
    (b : interval_t V) (bs : intervals_t V) (s : V) :
    p.addConstraint x b s =
        (Status.runtime_error "Invalid constraint (wrong input size)", p) ∧
      p.addConstraint_list x bs s =
        (Status.runtime_error "Invalid constraint (wrong input size)", p) := by
  constructor
  · simp [Problem.addConstraint, hx, hin]
  · simp [Problem.addConstraint_list, hx, hin]

/-- C2 on a three-input constraint offered to a two-input objective. -/
theorem C2_input_size_mismatch_rejected_witness :
    (handle 3 1).get = some (constraintFn 3 1) ∧
      (constraintFn 3 1).inputSize ≠ fresh2.function.inputSize ∧
      fresh2.addConstraint (handle 3 1) (0, 10) 1 =
        (Status.runtime_error "Invalid constraint (wrong input size)", fresh2) ∧
      fresh2.addConstraint_list (handle 3 1) [(0, 1)] 1 =
        (Status.runtime_error "Invalid constraint (wrong input size)", fresh2) :=
  ⟨rfl, by decide,
    C2_input_size_mismatch_rejected fresh2 (handle 3 1) (constraintFn 3 1) rfl
      (by decide) (0, 10) [(0, 1)] 1⟩

/-- C3: with the right `inputSize ()` and a bound list whose length differs from the
handle's `outputSize ()`, the bound-list overload throws the recoverable error and the
problem at that point is the problem before the call. -/
theorem C3_bound_list_length_mismatch_rejected (p : Problem V) (x : shared_ptr V)
    (c : Function V) (hx : x.get = some c) (hin : c.inputSize = p.function.inputSize)
    (bs : intervals_t V) (hlen : bs.length ≠ c.outputSize) (s : V) :
    p.addConstraint_list x bs s =
      (Status.runtime_error "Invalid constraint (output size is not equal to one)", p) := by
  have hne : c.outputSize ≠ bs.length := fun e => hlen e.symm
  simp [Problem.addConstraint_list, hx, hin, hne]

/-- C3 on a three-output constraint offered with two bounds. -/
theorem C3_bound_list_length_mismatch_rejected_witness :
    (handle 2 3).get = some (constraintFn 2 3) ∧
      (constraintFn 2 3).inputSize = fresh2.function.inputSize ∧
      [((0 : Int), (1 : Int)), (0, 1)].length ≠ (constraintFn 2 3).outputSize ∧
      fresh2.addConstraint_list (handle 2 3) [(0, 1), (0, 1)] 2 =
        (Status.runtime_error "Invalid constraint (output size is not equal to one)",
          fresh2) :=
  ⟨rfl, rfl, by decide,
    C3_bound_list_length_mismatch_rejected fresh2 (handle 2 3) (constraintFn 2 3) rfl rfl
      [(0, 1), (0, 1)] (by decide) 2⟩

/-- C4: for a non-null handle with `inputSize () == function ().inputSize ()` and
`outputSize () == 1`, a bound with lower `<=` upper and any scale, the single-bound
overload returns, and afterwards `constraints ()`, `bounds ()` and `scales ()` are the
old sequences with the handle, the bound and the scale appended at the end. -/
theorem C4_single_bound_appends (p : Problem V) (x : shared_ptr V) (c : Function V)
    (hx : x.get = some c) (hin : c.inputSize = p.function.inputSize)
    (hout : c.outputSize = 1) (b : interval_t V) (hb : b.1 ≤ b.2) (s : V) :
    (p.addConstraint x b s).1 = Status.returned ∧
      (p.addConstraint x b s).2.constraints = p.constraints ++ [x] ∧
      (p.addConstraint x b s).2.bounds = p.bounds ++ [b] ∧
      (p.addConstraint x b s).2.scales = p.scales ++ [s] := by
  rw [addConstraint_valid p x c b s hx hin hout hb]
  exact ⟨rfl, rfl, rfl, rfl⟩

/-- C4 on the fresh two-input objective with bound (0, 10) and scale 1: one
constraint, bounds `[(0, 10)]`, scales `[1]`. -/
theorem C4_single_bound_appends_witness :
    ((handle 2 1).get = some (constraintFn 2 1) ∧
      (constraintFn 2 1).inputSize = fresh2.function.inputSize ∧
      (constraintFn 2 1).outputSize = 1 ∧ ((0 : Int), (10 : Int)).1 ≤ ((0 : Int), (10 : Int)).2) ∧
      (fresh2.addConstraint (handle 2 1) (0, 10) 1).1 = Status.returned ∧
      (fresh2.addConstraint (handle 2 1) (0, 10) 1).2.constraints = [] ++ [handle 2 1] ∧
      (fresh2.addConstraint (handle 2 1) (0, 10) 1).2.bounds = [] ++ [(0, 10)] ∧
      (fresh2.addConstraint (handle 2 1) (0, 10) 1).2.scales = [] ++ [1] :=
  ⟨⟨rfl, rfl, rfl, by decide⟩,
    C4_single_bound_appends fresh2 (handle 2 1) (constraintFn 2 1) rfl rfl rfl (0, 10)
      (by decide) 1⟩

/-- C5: for a non-null handle with matching `inputSize ()`, a bound list of length
`outputSize ()` whose bounds are all well-ordered and any scale `s`, the bound-list
overload returns, and afterwards `constraints ()` is the old sequence with the handle
appended once, `bounds ()` is the old sequence followed by the bounds in list order
and `scales ()` is the old sequence followed by as many copies of `s`. -/
theorem C5_bound_list_appends (p : Problem V) (x : shared_ptr V) (c : Function V)
    (hx : x.get = some c) (hin : c.inputSize = p.function.inputSize)
    (bs : intervals_t V) (hlen : bs.length = c.outputSize)
    (hb : ∀ bi ∈ bs, bi.1 ≤ bi.2) (s : V) :
    (p.addConstraint_list x bs s).1 = Status.returned ∧
      (p.addConstraint_list x bs s).2.constraints = p.constraints ++ [x] ∧
      (p.addConstraint_list x bs s).2.constraints.length = p.constraints.length + 1 ∧
      (p.addConstraint_list x bs s).2.bounds = p.bounds ++ bs ∧
      (p.addConstraint_list x bs s).2.scales =
        p.scales ++ List.replicate c.outputSize s := by
  rw [addConstraint_list_valid p x c bs s hx hin hlen.symm hb, ← hlen]
  refine ⟨rfl, rfl, ?_, rfl, rfl⟩
  simp [Problem.constraints]

/-- C5 on the fresh two-input objective: a three-output constraint with bounds
`[(0, 1), (0, 1), (0, 1)]` and scale 2. -/
theorem C5_bound_list_appends_witness :
    ((handle 2 3).get = some (constraintFn 2 3) ∧
      (constraintFn 2 3).inputSize = fresh2.function.inputSize ∧
      [((0 : Int), (1 : Int)), (0, 1), (0, 1)].length = (constraintFn 2 3).outputSize ∧
      ∀ bi ∈ [((0 : Int), (1 : Int)), (0, 1), (0, 1)], bi.1 ≤ bi.2) ∧
      (fresh2.addConstraint_list (handle 2 3) [(0, 1), (0, 1), (0, 1)] 2).1 =
        Status.returned ∧
      (fresh2.addConstraint_list (handle 2 3) [(0, 1), (0, 1), (0, 1)] 2).2.constraints =
        fresh2.constraints ++ [handle 2 3] ∧
      (fresh2.addConstraint_list (handle 2 3)
        [(0, 1), (0, 1), (0, 1)] 2).2.constraints.length = fresh2.constraints.length + 1 ∧
      (fresh2.addConstraint_list (handle 2 3) [(0, 1), (0, 1), (0, 1)] 2).2.bounds =
        fresh2.bounds ++ [(0, 1), (0, 1), (0, 1)] ∧
      (fresh2.addConstraint_list (handle 2 3) [(0, 1), (0, 1), (0, 1)] 2).2.scales =
        fresh2.scales ++ List.replicate (constraintFn 2 3).outputSize 2 :=
  ⟨⟨rfl, rfl, rfl, by decide⟩,
    C5_bound_list_appends fresh2 (handle 2 3) (constraintFn 2 3) rfl rfl
      [(0, 1), (0, 1), (0, 1)] rfl (by decide) 2⟩

/-- C6: for a non-null handle, a well-ordered bound and any scale, the single-bound
overload throws the recoverable error exactly when the handle's `inputSize ()` differs
from `function ().inputSize ()` or its `outputSize ()` is not 1; a handle with the
right input size and `outputSize () != 1` is rejected with the problem unchanged. -/
theorem C6_single_bound_error_iff (p : Problem V) (x : shared_ptr V) (c : Function V)
    (hx : x.get = some c) (b : interval_t V) (hb : b.1 ≤ b.2) (s : V) :
    ((∃ what, (p.addConstraint x b s).1 = Status.runtime_error what) ↔
        (c.inputSize ≠ p.function.inputSize ∨ c.outputSize ≠ 1)) ∧
      (c.inputSize = p.function.inputSize → c.outputSize ≠ 1 →
        p.addConstraint x b s =
          (Status.runtime_error "Invalid constraint (output size is not equal to one)",
            p)) := by
  by_cases hin : c.inputSize = p.function.inputSize
  · by_cases hout : c.outputSize = 1
    · rw [addConstraint_valid p x c b s hx hin hout hb]
      simp [hin, hout]
    · simp [Problem.addConstraint, hx, hin, hout]
  · simp [Problem.addConstraint, hx, hin]

/-- C6 on a three-output constraint with the right input size. -/
theorem C6_single_bound_error_iff_witness :
    ((handle 2 3).get = some (constraintFn 2 3) ∧
      ((0 : Int), (10 : Int)).1 ≤ ((0 : Int), (10 : Int)).2) ∧
      ((∃ what, (fresh2.addConstraint (handle 2 3) (0, 10) 1).1 =
          Status.runtime_error what) ↔
        ((constraintFn 2 3).inputSize ≠ fresh2.function.inputSize ∨
          (constraintFn 2 3).outputSize ≠ 1)) ∧
      ((constraintFn 2 3).inputSize = fresh2.function.inputSize →
        (constraintFn 2 3).outputSize ≠ 1 →
        fresh2.addConstraint (handle 2 3) (0, 10) 1 =
          (Status.runtime_error "Invalid constraint (output size is not equal to one)",
            fresh2)) :=
  ⟨⟨rfl, by decide⟩,
    C6_single_bound_error_iff fresh2 (handle 2 3) (constraintFn 2 3) rfl (0, 10)
      (by decide) 1⟩

/-- C7, the code at the failing input: the bound-list overload, given a valid
one-output handle and the inverted bound (1, 0), stops on the ordering assertion with
the handle already appended to `constraints ()`, while `bounds ()` and `scales ()` are
still empty. The single-bound overload stops on the same bound with nothing appended. -/
theorem C7_bound_list_appends_handle_before_assertion :
    (fresh2.addConstraint_list (handle 2 1) [(1, 0)] 1).1 =
        Status.assertion_failed "b[i].first <= b[i].second" ∧
      (fresh2.addConstraint_list (handle 2 1) [(1, 0)] 1).2.constraints =
        fresh2.constraints ++ [handle 2 1] ∧
      (fresh2.addConstraint_list (handle 2 1) [(1, 0)] 1).2.constraints ≠
        fresh2.constraints ∧
      (fresh2.addConstraint_list (handle 2 1) [(1, 0)] 1).2.bounds = [] ∧
      (fresh2.addConstraint_list (handle 2 1) [(1, 0)] 1).2.scales = [] ∧
      fresh2.addConstraint (handle 2 1) (1, 0) 1 =
        (Status.assertion_failed "b.first <= b.second", fresh2) := by
  refine ⟨by decide, rfl, ?_, rfl, rfl, rfl⟩
  intro h
  have hlen := congrArg List.length h
  revert hlen
  decide

/-- C8: after a sequence of calls from a fresh problem, `constraints ()` lists the
handles of the calls that returned, in call order, and `bounds ()` and `scales ()` are
the per-call bounds and scales laid end to end in that order: for the `k`-th stored
constraint and each output `j < outputSize ()`, the `j`-th bound given with it and its
scale sit at index (sum of `outputSize ()` over the constraints before it) `+ j`. -/
theorem C8_flattened_order [Zero V] [One V] (inf : interval_t V) (f : Function V)
    (p : Problem V) (h : Problem.ctor inf f = Except.ok p) (cs : List (Call V)) :
    (p.run cs).constraints = (p.accepted cs).map Call.handle ∧
      (p.run cs).bounds = ((p.accepted cs).map Call.boundsOf).flatten ∧
      (p.run cs).scales =
        ((p.accepted cs).map (fun c => List.replicate c.boundsOf.length c.scale)).flatten ∧
      ∀ k c, (p.accepted cs)[k]? = some c →
        ∃ g off, (p.run cs).constraints[k]? = some c.handle ∧
          c.handle.get = some g ∧
          sumOutputSize ((p.run cs).constraints.take k) = some off ∧
          ∀ j, j < g.outputSize →
            ∃ b, c.boundsOf[j]? = some b ∧
              (p.run cs).bounds[off + j]? = some b ∧
              (p.run cs).scales[off + j]? = some c.scale := by
  obtain ⟨_, hp⟩ := ctor_ok inf f p h
  have hr := run_accepted cs p
  have hc : (p.run cs).constraints = (p.accepted cs).map Call.handle := by
    rw [hr, hp]; rfl
  have hb : (p.run cs).bounds = ((p.accepted cs).map Call.boundsOf).flatten := by
    rw [hr, hp]; rfl
  have hs : (p.run cs).scales =
      ((p.accepted cs).map (fun c => List.replicate c.boundsOf.length c.scale)).flatten := by
    rw [hr, hp]; rfl
  refine ⟨hc, hb, hs, ?_⟩
  intro k c hk
  obtain ⟨g, hg, hout⟩ := accepted_outputSize cs p c (List.getElem?_mem hk)
  refine ⟨g, (((p.accepted cs).take k).map (fun c => c.boundsOf.length)).sum, ?_, hg, ?_, ?_⟩
  · rw [hc, List.getElem?_map, hk]; rfl
  · rw [hc, ← List.map_take]
    exact sumOutputSize_map_handle _
      (fun d hd => accepted_outputSize cs p d (List.mem_of_mem_take hd))
  · intro j hj
    rw [hout] at hj
    refine ⟨c.boundsOf[j], List.getElem?_eq_getElem hj, ?_, ?_⟩
    · have hk1 : ((p.accepted cs).map Call.boundsOf)[k]? = some c.boundsOf := by
        rw [List.getElem?_map, hk]; rfl
      have key := getElem?_flatten_offset _ k c.boundsOf hk1 j hj
      rw [← List.map_take, List.map_map, List.getElem?_eq_getElem hj] at key
      rw [hb]
      exact key
    · have hk2 : ((p.accepted cs).map
          (fun c => List.replicate c.boundsOf.length c.scale))[k]? =
          some (List.replicate c.boundsOf.length c.scale) := by
        rw [List.getElem?_map, hk]; rfl
      have key := getElem?_flatten_offset _ k _ hk2 j (by simpa using hj)
      rw [← List.map_take, List.map_map, List.getElem?_replicate, if_pos hj] at key
      rw [hs]
      have hfun : (List.length ∘ fun c : Call V => List.replicate c.boundsOf.length c.scale) =
          fun c : Call V => c.boundsOf.length := by
        funext c; simp
      rw [hfun] at key
      exact key

/-- C8 on the four example calls: the two accepted calls give two stored handles and
four bounds and scales, the three-output constraint starting at index 1. -/
theorem C8_flattened_order_witness :
    Problem.ctor unbounded objective2 = Except.ok fresh2 ∧
      ((fresh2.run exampleCalls).constraints = (fresh2.accepted exampleCalls).map Call.handle ∧
      (fresh2.run exampleCalls).bounds =
        ((fresh2.accepted exampleCalls).map Call.boundsOf).flatten ∧
      (fresh2.run exampleCalls).scales =
        ((fresh2.accepted exampleCalls).map
          (fun c => List.replicate c.boundsOf.length c.scale)).flatten ∧
      ∀ k c, (fresh2.accepted exampleCalls)[k]? = some c →
        ∃ g off, (fresh2.run exampleCalls).constraints[k]? = some c.handle ∧
          c.handle.get = some g ∧
          sumOutputSize ((fresh2.run exampleCalls).constraints.take k) = some off ∧
          ∀ j, j < g.outputSize →
            ∃ b, c.boundsOf[j]? = some b ∧
              (fresh2.run exampleCalls).bounds[off + j]? = some b ∧
              (fresh2.run exampleCalls).scales[off + j]? = some c.scale) ∧
      (fresh2.run exampleCalls).constraints = [handle 2 1, handle 2 3] ∧
      (fresh2.run exampleCalls).bounds = [(0, 10), (0, 1), (2, 3), (4, 5)] ∧
      (fresh2.run exampleCalls).scales = [1, 2, 2, 2] :=
  ⟨rfl, C8_flattened_order unbounded objective2 fresh2 rfl exampleCalls, rfl, by decide,
    by decide⟩

end Claims

section ClaimsAccessors

variable {V : Type}

/-- C9: for an objective with `outputSize () == 1`, the general and the
zero-constraint constructors return a problem whose `argumentBounds ()` and
`argumentScales ()` have `inputSize ()` entries, every bound being the infinite
interval and every scale 1, with no starting point and, in the general variant, empty
`constraints ()`, `bounds ()` and `scales ()`; for an objective with
`outputSize () != 1` both stop on the assertion. -/
theorem C9_constructor [Zero V] [One V] (inf : interval_t V) (f : Function V) :
    (f.outputSize = 1 →
      (∃ p, Problem.ctor inf f = Except.ok p ∧
        p.function = f ∧
        p.argumentBounds.length = f.inputSize ∧
        p.argumentScales.length = f.inputSize ∧
        (∀ b ∈ p.argumentBounds, b = inf) ∧
        (∀ s ∈ p.argumentScales, s = 1) ∧
        p.startingPoint = Except.ok none ∧
        p.constraints = [] ∧ p.bounds = [] ∧ p.scales = []) ∧
      (∃ q, ProblemNoConstraint.ctor inf f = Except.ok q ∧
        q.function = f ∧
        q.argumentBounds.length = f.inputSize ∧
        q.argumentScales.length = f.inputSize ∧
        (∀ b ∈ q.argumentBounds, b = inf) ∧
        (∀ s ∈ q.argumentScales, s = 1) ∧
        q.startingPoint = Except.ok none)) ∧
    (f.outputSize ≠ 1 →
      Problem.ctor inf f =
        Except.error (Status.assertion_failed "f.outputSize () == 1") ∧
      ProblemNoConstraint.ctor inf f =
        Except.error (Status.assertion_failed "f.outputSize () == 1")) := by
  constructor
  · intro hf
    constructor
    · refine ⟨_, ctor_scalar inf f hf, rfl, ?_, ?_, ?_, ?_, rfl, rfl, rfl, rfl⟩
      · simp [Problem.argumentBounds]
      · simp [Problem.argumentScales]
      · intro b hb
        exact List.eq_of_mem_replicate hb
      · intro s hs
        exact List.eq_of_mem_replicate hs
    · refine ⟨_, ctor_noConstraint_scalar inf f hf, rfl, ?_, ?_, ?_, ?_, rfl⟩
      · simp [ProblemNoConstraint.argumentBounds]
      · simp [ProblemNoConstraint.argumentScales]
      · intro b hb
        exact List.eq_of_mem_replicate hb
      · intro s hs
        exact List.eq_of_mem_replicate hs
  · intro hf
    simp [Problem.ctor, ProblemNoConstraint.ctor, hf]

/-- C9 on a scalar objective with two inputs: both constructors return. -/
theorem C9_constructor_witness :
    objective2.outputSize = 1 ∧
      (∃ p, Problem.ctor unbounded objective2 = Except.ok p ∧
        p.function = objective2 ∧
        p.argumentBounds.length = objective2.inputSize ∧
        p.argumentScales.length = objective2.inputSize ∧
        (∀ b ∈ p.argumentBounds, b = unbounded) ∧
        (∀ s ∈ p.argumentScales, s = 1) ∧
        p.startingPoint = Except.ok none ∧
        p.constraints = [] ∧ p.bounds = [] ∧ p.scales = []) ∧
      (∃ q, ProblemNoConstraint.ctor unbounded objective2 = Except.ok q ∧
        q.function = objective2 ∧
        q.argumentBounds.length = objective2.inputSize ∧
        q.argumentScales.length = objective2.inputSize ∧
        (∀ b ∈ q.argumentBounds, b = unbounded) ∧
        (∀ s ∈ q.argumentScales, s = 1) ∧
        q.startingPoint = Except.ok none) :=
  ⟨rfl, (C9_constructor unbounded objective2).1 rfl⟩

/-- C10, the claim fails on a problem that holds a starting point of the wrong size:
from the fresh problem on a two-input objective, `pb.startingPoint () = [7]` returns
and stores the one-entry vector; on the resulting problem, writing the two-entry
vector `[1, 2]` through the accessor fails on the size check, nothing is written, and
reading the accessor afterwards does not give `[1, 2]`. -/
theorem C10_counterexample_missized_starting_point :
    Problem.ctor unbounded objective2 = Except.ok fresh2 ∧
      fresh2.startingPoint_assign (some [7]) = (Status.returned, missized2) ∧
      [(1 : Int), 2].length = missized2.function.inputSize ∧
      missized2.startingPoint_assign (some [1, 2]) =
        (Status.unexpected "Invalid starting point (wrong size)", missized2) ∧
      (missized2.startingPoint_assign (some [1, 2])).2.startingPoint ≠
        Except.ok (some [1, 2]) := by
  refine ⟨rfl, rfl, rfl, rfl, ?_⟩
  intro h
  cases h

/-- C10, amended: on a problem (general or zero-constraint) whose stored starting
point is absent or has `function ().inputSize ()` entries, writing a vector `x` of
that size through `startingPoint ()` returns, and reading `startingPoint ()` afterwards
returns the present value `x` without error; on a freshly constructed problem
`startingPoint ()` returns the absent value without error. -/
theorem C10_starting_point_round_trip [Zero V] [One V] (p : Problem V)
    (q : ProblemNoConstraint V) (x : vector_t V)
    (hp : ∀ v, p.startingPoint_ = some v → v.length = p.function.inputSize)
    (hq : ∀ v, q.startingPoint_ = some v → v.length = q.function.inputSize)
    (hxp : x.length = p.function.inputSize) (hxq : x.length = q.function.inputSize) :
    ((p.startingPoint_assign (some x)).1 = Status.returned ∧
        (p.startingPoint_assign (some x)).2.startingPoint = Except.ok (some x)) ∧
      ((q.startingPoint_assign (some x)).1 = Status.returned ∧
        (q.startingPoint_assign (some x)).2.startingPoint = Except.ok (some x)) ∧
      (∀ (inf : interval_t V) (f : Function V) (p0 : Problem V),
        Problem.ctor inf f = Except.ok p0 → p0.startingPoint = Except.ok none) ∧
      (∀ (inf : interval_t V) (f : Function V) (q0 : ProblemNoConstraint V),
        ProblemNoConstraint.ctor inf f = Except.ok q0 →
          q0.startingPoint = Except.ok none) := by
  have hpa : p.startingPoint = Except.ok p.startingPoint_ := by
    unfold Problem.startingPoint
    cases hs : p.startingPoint_ with
    | none => rfl
    | some v => simp [hp v hs]
  have hqa : q.startingPoint = Except.ok q.startingPoint_ := by
    unfold ProblemNoConstraint.startingPoint
    cases hs : q.startingPoint_ with
    | none => rfl
    | some v => simp [hq v hs]
  refine ⟨?_, ?_, ?_, ?_⟩
  · have ha : p.startingPoint_assign (some x) =
        (Status.returned, { p with startingPoint_ := some x }) := by
      simp only [Problem.startingPoint_assign, hpa]
    rw [ha]
    refine ⟨rfl, ?_⟩
    simp only [Problem.startingPoint, Problem.function] at hxp ⊢
    simp [hxp]
  · have ha : q.startingPoint_assign (some x) =
        (Status.returned, { q with startingPoint_ := some x }) := by
      simp only [ProblemNoConstraint.startingPoint_assign, hqa]
    rw [ha]
    refine ⟨rfl, ?_⟩
    simp only [ProblemNoConstraint.startingPoint, ProblemNoConstraint.function] at hxq ⊢
    simp [hxq]
  · intro inf f p0 h0
    unfold Problem.ctor at h0
    by_cases hf : f.outputSize = 1
    · simp only [hf, if_true, Except.ok.injEq] at h0
      rw [← h0]
      rfl
    · simp [hf] at h0
  · intro inf f q0 h0
    unfold ProblemNoConstraint.ctor at h0
    by_cases hf : f.outputSize = 1
    · simp only [hf, if_true, Except.ok.injEq] at h0
      rw [← h0]
      rfl
    · simp [hf] at h0

/-- C10, amended, on a general problem that already holds a two-entry starting point
and on a fresh zero-constraint problem, writing `[1, 2]`. -/
theorem C10_starting_point_round_trip_witness :
    ((∀ v, started2.startingPoint_ = some v → v.length = started2.function.inputSize) ∧
      (∀ v, freshNoConstraint2.startingPoint_ = some v →
        v.length = freshNoConstraint2.function.inputSize) ∧
      [(1 : Int), 2].length = started2.function.inputSize ∧
      [(1 : Int), 2].length = freshNoConstraint2.function.inputSize) ∧
      ((started2.startingPoint_assign (some [1, 2])).1 = Status.returned ∧
        (started2.startingPoint_assign (some [1, 2])).2.startingPoint =
          Except.ok (some [1, 2])) ∧
      ((freshNoConstraint2.startingPoint_assign (some [1, 2])).1 = Status.returned ∧
        (freshNoConstraint2.startingPoint_assign (some [1, 2])).2.startingPoint =
          Except.ok (some [1, 2])) ∧
      (∀ (inf : interval_t Int) (f : Function Int) (p0 : Problem Int),
        Problem.ctor inf f = Except.ok p0 → p0.startingPoint = Except.ok none) ∧
      (∀ (inf : interval_t Int) (f : Function Int) (q0 : ProblemNoConstraint Int),
        ProblemNoConstraint.ctor inf f = Except.ok q0 →
          q0.startingPoint = Except.ok none) :=
  ⟨⟨fun v h => (by cases h; rfl), fun v h => (by cases h), rfl, rfl⟩,
    C10_starting_point_round_trip started2 freshNoConstraint2 [1, 2]
      (fun v h => (by cases h; rfl)) (fun v h => (by cases h)) rfl rfl⟩

/-- C11, the code at the failing input: on the general problem that holds the
one-entry starting point `[7]` for a two-input objective (reached from a fresh problem
by `pb.startingPoint () = [7]`), `startingPoint ()` throws `std::runtime_error` inside
a function declared `throw ()`, so the call ends in `std::unexpected ()` and no
exception reaches the caller. The specialization stops on its assertion. -/
theorem C11_general_accessor_exception_does_not_reach_caller :
    fresh2.startingPoint_assign (some [7]) = (Status.returned, missized2) ∧
      missized2.startingPoint =
        Except.error (Status.unexpected "Invalid starting point (wrong size)") ∧
      missized2.startingPoint ≠
        Except.error (Status.runtime_error "Invalid starting point (wrong size)") ∧
      freshNoConstraint2.startingPoint_assign (some [7]) =
        (Status.returned, missizedNoConstraint2) ∧
      missizedNoConstraint2.startingPoint =
        Except.error
          (Status.assertion_failed "0 && Invalid starting point (wrong size)") := by
  refine ⟨rfl, rfl, ?_, rfl, rfl⟩
  intro h
  cases h

end ClaimsAccessors

section ClaimsNullAndOverloads

variable {V : Type} [LE V] [DecidableRel (fun a b : V => a ≤ b)]

/-- C12: with a null handle both overloads end at `x->inputSize ()`, their first
statement, on the assertion of `operator->`, before anything is read through the
handle; the problem at that point is the problem before the call, so nothing has been
appended, whatever the bound, bound list and scale. Hence every handle stored in
`constraints ()` of a problem made by the constructor and any sequence of
`addConstraint` calls is non-null. -/
theorem C12_null_handle_rejected_and_never_stored [Zero V] [One V] (p : Problem V)
    (x : shared_ptr V) (hx : x.get = none) (b : interval_t V) (bs : intervals_t V)
    (s : V) :
    (p.addConstraint x b s = (Status.null_dereference, p) ∧
        (p.addConstraint x b s).1.isFatalAssertion = true ∧
        (p.addConstraint x b s).2.constraints = p.constraints ∧
        (p.addConstraint x b s).2.bounds = p.bounds ∧
        (p.addConstraint x b s).2.scales = p.scales) ∧
      (p.addConstraint_list x bs s = (Status.null_dereference, p) ∧
        (p.addConstraint_list x bs s).1.isFatalAssertion = true ∧
        (p.addConstraint_list x bs s).2.constraints = p.constraints ∧
        (p.addConstraint_list x bs s).2.bounds = p.bounds ∧
        (p.addConstraint_list x bs s).2.scales = p.scales) ∧
      (∀ cs : List (Call V), p.run (Call.single x b s :: Call.list x bs s :: cs) =
        p.run cs) ∧
      (∀ (inf : interval_t V) (f : Function V) (p0 : Problem V) (cs : List (Call V)),
        Problem.ctor inf f = Except.ok p0 →
          ∀ y ∈ (p0.run cs).constraints, y.get ≠ none) := by
  have h1 : p.addConstraint x b s = (Status.null_dereference, p) := by
    simp [Problem.addConstraint, hx]
  have h2 : p.addConstraint_list x bs s = (Status.null_dereference, p) := by
    simp [Problem.addConstraint_list, hx]
  refine ⟨?_, ?_, ?_, ?_⟩
  · rw [h1]
    exact ⟨rfl, rfl, rfl, rfl, rfl⟩
  · rw [h2]
    exact ⟨rfl, rfl, rfl, rfl, rfl⟩
  · intro cs
    have a1 : p.apply (Call.single x b s) = p := by
      simp [Problem.apply, Call.exec, h1]
    have a2 : p.apply (Call.list x bs s) = p := by
      simp [Problem.apply, Call.exec, h2]
    simp only [Problem.run, a1, a2]
  · intro inf f p0 cs h y hy
    obtain ⟨_, hp⟩ := ctor_ok inf f p0 h
    have hc : (p0.run cs).constraints = (p0.accepted cs).map Call.handle := by
      rw [run_accepted cs p0, hp]
      rfl
    rw [hc] at hy
    obtain ⟨c, hc1, rfl⟩ := List.mem_map.1 hy
    obtain ⟨g, hg, _⟩ := accepted_outputSize cs p0 c hc1
    rw [hg]
    exact Option.some_ne_none g

/-- C12 on the fresh two-input problem and a null handle, and on the run of the four
example calls preceded by two calls with the null handle: the two stored handles are
the non-null ones. -/
theorem C12_null_handle_rejected_and_never_stored_witness :
    nullHandle.get = none ∧
      ((fresh2.addConstraint nullHandle (0, 10) 1 = (Status.null_dereference, fresh2) ∧
          (fresh2.addConstraint nullHandle (0, 10) 1).1.isFatalAssertion = true ∧
          (fresh2.addConstraint nullHandle (0, 10) 1).2.constraints = fresh2.constraints ∧
          (fresh2.addConstraint nullHandle (0, 10) 1).2.bounds = fresh2.bounds ∧
          (fresh2.addConstraint nullHandle (0, 10) 1).2.scales = fresh2.scales) ∧
        (fresh2.addConstraint_list nullHandle [(0, 10)] 1 =
            (Status.null_dereference, fresh2) ∧
          (fresh2.addConstraint_list nullHandle [(0, 10)] 1).1.isFatalAssertion = true ∧
          (fresh2.addConstraint_list nullHandle [(0, 10)] 1).2.constraints =
            fresh2.constraints ∧
          (fresh2.addConstraint_list nullHandle [(0, 10)] 1).2.bounds = fresh2.bounds ∧
          (fresh2.addConstraint_list nullHandle [(0, 10)] 1).2.scales = fresh2.scales) ∧
        (∀ cs : List (Call Int),
          fresh2.run (Call.single nullHandle (0, 10) 1 ::
            Call.list nullHandle [(0, 10)] 1 :: cs) = fresh2.run cs) ∧
        (∀ (inf : interval_t Int) (f : Function Int) (p0 : Problem Int)
          (cs : List (Call Int)),
          Problem.ctor inf f = Except.ok p0 →
            ∀ y ∈ (p0.run cs).constraints, y.get ≠ none)) ∧
      (fresh2.run (Call.single nullHandle (0, 10) 1 ::
        Call.list nullHandle [(0, 10)] 1 :: exampleCalls)).constraints =
          [handle 2 1, handle 2 3] :=
  ⟨rfl,
    C12_null_handle_rejected_and_never_stored fresh2 nullHandle rfl (0, 10) [(0, 10)] 1,
    rfl⟩

/-- C20: for a handle with `outputSize () == 1`, any bound `b` and any scale `s`, the
bound-list overload called with `[b]` returns exactly when the single-bound overload
called with `b` returns, and when they return they leave the same problem, hence equal
`constraints ()`, `bounds ()` and `scales ()`. -/
theorem C20_one_element_list_agrees_with_single_bound (p : Problem V) (x : shared_ptr V)
    (c : Function V) (hx : x.get = some c) (hout : c.outputSize = 1) (b : interval_t V)
    (s : V) :
    ((p.addConstraint_list x [b] s).1 = Status.returned ↔
        (p.addConstraint x b s).1 = Status.returned) ∧
      ((p.addConstraint x b s).1 = Status.returned →
        (p.addConstraint_list x [b] s).2 = (p.addConstraint x b s).2 ∧
        (p.addConstraint_list x [b] s).2.constraints =
          (p.addConstraint x b s).2.constraints ∧
        (p.addConstraint_list x [b] s).2.bounds = (p.addConstraint x b s).2.bounds ∧
        (p.addConstraint_list x [b] s).2.scales = (p.addConstraint x b s).2.scales) := by
  by_cases hin : c.inputSize = p.function.inputSize
  · by_cases hb : b.1 ≤ b.2
    · have h1 := addConstraint_valid p x c b s hx hin hout hb
      have h2 := addConstraint_list_valid p x c [b] s hx hin (by simpa using hout)
        (by simpa using hb)
      rw [h1, h2]
      simp
    · have h1 : (p.addConstraint x b s).1 ≠ Status.returned := by
        simp [Problem.addConstraint, hx, hin, hout, hb]
      have h2 : (p.addConstraint_list x [b] s).1 ≠ Status.returned := by
        simp [Problem.addConstraint_list, hx, hin, hout, hb]
      exact ⟨⟨fun h => absurd h h2, fun h => absurd h h1⟩, fun h => absurd h h1⟩
  · have h1 : (p.addConstraint x b s).1 ≠ Status.returned := by
      simp [Problem.addConstraint, hx, hin]
    have h2 : (p.addConstraint_list x [b] s).1 ≠ Status.returned := by
      simp [Problem.addConstraint_list, hx, hin]
    exact ⟨⟨fun h => absurd h h2, fun h => absurd h h1⟩, fun h => absurd h h1⟩

/-- C20 on the fresh two-input problem, a one-output handle, the bound (0, 10) and the
scale 1: both overloads return. -/
theorem C20_one_element_list_agrees_with_single_bound_witness :
    ((handle 2 1).get = some (constraintFn 2 1) ∧ (constraintFn 2 1).outputSize = 1) ∧
      (fresh2.addConstraint (handle 2 1) (0, 10) 1).1 = Status.returned ∧
      ((fresh2.addConstraint_list (handle 2 1) [(0, 10)] 1).1 = Status.returned ↔
        (fresh2.addConstraint (handle 2 1) (0, 10) 1).1 = Status.returned) ∧
      ((fresh2.addConstraint (handle 2 1) (0, 10) 1).1 = Status.returned →
        (fresh2.addConstraint_list (handle 2 1) [(0, 10)] 1).2 =
          (fresh2.addConstraint (handle 2 1) (0, 10) 1).2 ∧
        (fresh2.addConstraint_list (handle 2 1) [(0, 10)] 1).2.constraints =
          (fresh2.addConstraint (handle 2 1) (0, 10) 1).2.constraints ∧
        (fresh2.addConstraint_list (handle 2 1) [(0, 10)] 1).2.bounds =
          (fresh2.addConstraint (handle 2 1) (0, 10) 1).2.bounds ∧
        (fresh2.addConstraint_list (handle 2 1) [(0, 10)] 1).2.scales =
          (fresh2.addConstraint (handle 2 1) (0, 10) 1).2.scales) :=
  ⟨⟨rfl, rfl⟩, by decide,
    C20_one_element_list_agrees_with_single_bound fresh2 (handle 2 1) (constraintFn 2 1)
      rfl rfl (0, 10) 1⟩

end ClaimsNullAndOverloads

section ClaimsPrint

/-- C15, the code at the failing input: on a problem whose only stored constraint is
held as an alternative other than `shared_ptr<F>`, the counting loop of `print` ends in
`boost::bad_get` at that entry, and `print`, declared `throw ()`, ends before it has
written either "Number of constraints: " or "No constraints.". On the problem made by
the four example calls, whose two stored constraints are held as `shared_ptr<F>`, the
count written is 4, the sum of the output sizes 1 and 3. -/
theorem C15_count_is_not_written_for_other_kind :
    otherKind2.constraints = [handleOfKind 1 2 1] ∧
      countConstraints 0 otherKind2.constraints 0 = (Status.bad_get, 0) ∧
      otherKind2.print 0 1000000 =
        (Status.unexpected "boost::bad_get",
          [Token.text "Problem:", Token.incendl, Token.function objective2, Token.iendl,
            Token.text "Argument\x27s bounds: ", Token.intervals [unbounded, unbounded],
            Token.iendl, Token.text "Argument\x27s scales: ", Token.scales [1, 1],
            Token.iendl]) ∧
      accepted2.constraints = [handle 2 1, handle 2 3] ∧
      countConstraints 0 accepted2.constraints 0 = (Status.returned, 4) := by
  refine ⟨rfl, rfl, rfl, rfl, rfl⟩

/-- C16, the code at the failing input: a two-output constraint with bounds (0, 1) and
(5, 6) has the value `[0, 5]` at the starting point, so each output lies within its
own bound; the visitor compares both outputs with `bounds ()[bi_]`, the bound (0, 1) of
the first output, and writes " (constraint not satisfied)" for the second. -/
theorem C16_every_output_is_compared_with_the_first_bound :
    pairProblem.constraints = [pairHandle] ∧
      pairProblem.bounds = [(0, 1), (5, 6)] ∧
      pairProblem.startingPoint = Except.ok (some [0, 0]) ∧
      pairFn.compute [0, 0] = [0, 5] ∧
      notSatisfied ((0 : Int), (1 : Int)) 0 = false ∧
      notSatisfied ((5 : Int), (6 : Int)) 5 = false ∧
      notSatisfied ((0 : Int), (1 : Int)) 5 = true ∧
      printConstraint pairProblem 0 0 pairHandle [] =
        (Status.returned,
          [Token.iendl, Token.incindent, Token.text "Constraint ", Token.index 0,
            Token.incindent, Token.iendl, Token.function pairFn, Token.iendl,
            Token.text "Bounds: ", Token.interval (0, 1), Token.interval (5, 6),
            Token.iendl, Token.text "Scales: ", Token.scalar 1, Token.text "  ",
            Token.scalar 1, Token.text "  ", Token.iendl, Token.text "Initial value: ",
            Token.vector [0, 5], Token.text " (constraint not satisfied)", Token.iendl,
            Token.decindent, Token.decindent]) := by
  refine ⟨rfl, rfl, rfl, rfl, by decide, by decide, by decide, rfl⟩

/-- C17, the code at the failing input: on a problem that stores one constraint held
as alternative 0 and one held as alternative 1, the visitor renders either entry, but
`print` applies `get<shared_ptr<F> >` to every entry and ends in `boost::bad_get`
inside a function declared `throw ()`, whichever of the two alternatives `F` is. -/
theorem C17_print_requires_every_entry_to_hold_the_objective_type :
    mixedKinds2.constraints = [handle 2 1, handleOfKind 1 2 1] ∧
      (printConstraint mixedKinds2 0 0 (handle 2 1) []).1 = Status.returned ∧
      (printConstraint mixedKinds2 1 1 (handleOfKind 1 2 1) []).1 = Status.returned ∧
      (mixedKinds2.print 0 1000000).1 = Status.unexpected "boost::bad_get" ∧
      (mixedKinds2.print 1 1000000).1 = Status.unexpected "boost::bad_get" := by
  refine ⟨rfl, by decide, by decide, by decide, by decide⟩

/-- C18, the code at the failing input: after a two-output constraint and a one-output
constraint were added, `print` visits the second constraint with `bi = 2`, and
`constraints ().size () - bi_` is `2 - 2 = 0`, so the assertion fails. -/
theorem C18_assertion_fails_when_bound_index_reaches_constraint_count :
    twoThenOne.constraints = [handle 2 2, handle 2 1] ∧
      (visitConstraints 0 recordVisit twoThenOne.constraints 0 0 []).2 = [(0, 0), (1, 2)] ∧
      size_sub twoThenOne.constraints.length 2 = 0 ∧
      printConstraint twoThenOne 1 2 (handle 2 1) [] =
        (Status.assertion_failed "problem_.constraints ().size () - bi_ > 0", []) ∧
      (twoThenOne.print 0 1000000).1 =
        Status.assertion_failed "problem_.constraints ().size () - bi_ > 0" := by
  refine ⟨rfl, by decide, by decide, rfl, by decide⟩

end ClaimsPrint

/-! ## Lemmas on print -/

section PrintLemmas

variable {V : Type}

/-- The loop over the bounds returns when every index it reads is in range. -/
theorem printBounds_in_range (p : Problem V) (bi : Nat) (js : List Nat)
    (o : List (Token V)) (h : ∀ j ∈ js, bi + j < p.bounds.length) :
    (printBounds p bi js o).1 = Status.returned := by
  induction js generalizing o with
  | nil => rfl
  | cons j js ih =>
    have hlt : bi + j < p.bounds.length := h j (List.mem_cons_self j js)
    have hj := List.getElem?_eq_getElem hlt
    simp only [printBounds, hj]
    exact ih _ (fun k hk => h k (List.mem_cons_of_mem j hk))

/-- The loop over the scales returns when every index it reads is in range. -/
theorem printScales_in_range (p : Problem V) (bi : Nat) (js : List Nat)
    (o : List (Token V)) (h : ∀ j ∈ js, bi + j < p.scales.length) :
    (printScales p bi js o).1 = Status.returned := by
  induction js generalizing o with
  | nil => rfl
  | cons j js ih =>
    have hlt : bi + j < p.scales.length := h j (List.mem_cons_self j js)
    have hj := List.getElem?_eq_getElem hlt
    simp only [printScales, hj]
    exact ih _ (fun k hk => h k (List.mem_cons_of_mem j hk))

/-- The loop over the initial value returns when it has no entry to look at or `bi` is
in range. -/
theorem printUnsatisfied_in_range [LT V] [DecidableRel (fun a b : V => a < b)]
    (p : Problem V) (bi : Nat) (xs : List V) (o : List (Token V))
    (h : xs ≠ [] → bi < p.bounds.length) :
    (printUnsatisfied p bi xs o).1 = Status.returned := by
  induction xs generalizing o with
  | nil => rfl
  | cons x xs ih =>
    have hlt : bi < p.bounds.length := h (List.cons_ne_nil x xs)
    have hb := List.getElem?_eq_getElem hlt
    simp only [printUnsatisfied, hb]
    split
    · exact ih _ (fun _ => hlt)
    · exact ih _ (fun _ => hlt)

/-- The only failure of the general accessor is the one that ends in
`std::unexpected ()`. -/
theorem startingPoint_error (p : Problem V) (e : Status)
    (h : p.startingPoint = Except.error e) :
    e = Status.unexpected "Invalid starting point (wrong size)" := by
  unfold Problem.startingPoint at h
  split at h
  · split at h
    · simp only [Status.nothrow, Except.error.injEq] at h
      exact h.symm
    · cases h
  · cases h

/-- The exception specification does not turn any other end into a read past the
end. -/
theorem nothrow_ne_out_of_range (e : Status) (h : e ≠ Status.out_of_range) :
    e.nothrow ≠ Status.out_of_range := by
  cases e <;> simp_all [Status.nothrow]

/-- The counting loop reads no vector by index. -/
theorem countConstraints_ne_out_of_range (F : Nat) (cs : constraints_t V) (n : Int) :
    (countConstraints F cs n).1 ≠ Status.out_of_range := by
  induction cs generalizing n with
  | nil => simp [countConstraints]
  | cons c cs ih =>
    unfold countConstraints
    split
    · simp
    · split
      · simp
      · exact ih _

end PrintLemmas

section PrintLemmas2

variable {V : Type} [LT V] [DecidableRel (fun a b : V => a < b)]

/-- The visitor reads no vector past its end when it is applied to `constraints ()[ci]`
with a bound index that leaves room for all outputs of that constraint, and the
constraint returns as many values as it has outputs. -/
theorem printConstraint_in_range (p : Problem V) (ci bi : Nat) (c : shared_ptr V)
    (o : List (Token V)) (hci : p.constraints[ci]? = some c)
    (hb : ∀ g, c.get = some g →
      bi + g.outputSize ≤ p.bounds.length ∧ bi + g.outputSize ≤ p.scales.length)
    (hcon : ∀ g, c.get = some g → ∀ v, (g.compute v).length = g.outputSize) :
    (printConstraint p ci bi c o).1 ≠ Status.out_of_range := by
  unfold printConstraint
  split
  · simp
  · cases hg : c.get with
    | none => simp
    | some g =>
      obtain ⟨hb1, hb2⟩ := hb g hg
      have hB : ∀ o1, (printBounds p bi (List.range g.outputSize) o1).1 = Status.returned :=
        fun o1 => printBounds_in_range p bi _ o1 (fun j hj => by
          have := List.mem_range.1 hj
          omega)
      have hS : ∀ o1, (printScales p bi (List.range g.outputSize) o1).1 = Status.returned :=
        fun o1 => printScales_in_range p bi _ o1 (fun j hj => by
          have := List.mem_range.1 hj
          omega)
      have hU : ∀ sp o1, (printUnsatisfied p bi (g.compute sp) o1).1 = Status.returned :=
        fun sp o1 => printUnsatisfied_in_range p bi _ o1 (fun hne => by
          have hlen := hcon g hg sp
          have hpos : 0 < (g.compute sp).length := List.length_pos.2 hne
          omega)
      simp only []
      rcases hr1 : printBounds p bi (List.range g.outputSize) _ with ⟨s1, o2⟩
      have h1 : s1 = Status.returned :=
        (congrArg Prod.fst hr1).symm.trans (hB _)
      subst h1
      simp only []
      rcases hr2 : printScales p bi (List.range g.outputSize) _ with ⟨s2, o3⟩
      have h2 : s2 = Status.returned :=
        (congrArg Prod.fst hr2).symm.trans (hS _)
      subst h2
      simp only []
      cases hsp : p.startingPoint with
      | error e =>
        have := startingPoint_error p e hsp
        subst this
        simp
      | ok v =>
        cases v with
        | none => simp
        | some sp =>
          simp only [hci]
          split
          · simp
          · simp only [hg]
            rcases hr3 : printUnsatisfied p bi (g.compute sp) _ with ⟨s3, o5⟩
            have h3 : s3 = Status.returned :=
              (congrArg Prod.fst hr3).symm.trans (hU sp _)
            subst h3
            simp

/-- A sum over a non-empty sequence of handles gives the first pointee and the sum over
the others. -/
theorem sumOutputSize_cons {W : Type} (c : shared_ptr W) (rest : constraints_t W) (r : Nat)
    (h : sumOutputSize (c :: rest) = some r) :
    ∃ g r1, c.get = some g ∧ sumOutputSize rest = some r1 ∧ r = g.outputSize + r1 := by
  simp only [sumOutputSize] at h
  cases hg : c.get with
  | none => simp [hg] at h
  | some g =>
    cases hr : sumOutputSize rest with
    | none => simp [hg, hr] at h
    | some r1 =>
      simp only [hg, hr, Option.some.injEq] at h
      exact ⟨g, r1, rfl, rfl, h.symm⟩

/-- The second loop of `print`, run with the visitor `printConstraint` from a position
where `bi` is the sum of the output sizes before it, reads no vector past its end. -/
theorem visitConstraints_in_range (F : Nat) (p : Problem V)
    (h1 : p.bounds.length = p.scales.length)
    (hcon : ∀ c ∈ p.constraints, ∀ g, c.get = some g →
      ∀ v, (g.compute v).length = g.outputSize)
    (rest : constraints_t V) :
    ∀ (pre : constraints_t V) (bi r : Nat) (o : List (Token V)),
      p.constraints = pre ++ rest → sumOutputSize rest = some r →
      bi + r = p.bounds.length →
      (visitConstraints F (printConstraint p) rest pre.length bi o).1 ≠
        Status.out_of_range := by
  induction rest with
  | nil =>
    intro pre bi r o _ _ _
    simp [visitConstraints]
  | cons c rest ih =>
    intro pre bi r o hp hsum hbi
    obtain ⟨g, r1, hg, hrest, hr⟩ := sumOutputSize_cons c rest r hsum
    have hci : p.constraints[pre.length]? = some c := by
      rw [hp, List.getElem?_append_right (Nat.le_refl _), Nat.sub_self,
        List.getElem?_cons_zero]
    have hmem : c ∈ p.constraints := List.getElem?_mem hci
    have hvis := printConstraint_in_range p pre.length bi c o hci
      (fun g2 hg2 => by
        rw [hg] at hg2
        cases hg2
        constructor <;> omega)
      (hcon c hmem)
    unfold visitConstraints
    rcases hr1 : printConstraint p pre.length bi c o with ⟨s1, o1⟩
    rw [hr1] at hvis
    cases s1 with
    | returned =>
      simp only []
      split
      · simp
      · simp only [hg]
        have hp2 : p.constraints = (pre ++ [c]) ++ rest := by
          rw [hp]
          simp
        have := ih (pre ++ [c]) (bi + g.outputSize) r1 o1 hp2 hrest (by omega)
        simpa using this
    | out_of_range => exact absurd rfl hvis
    | runtime_error w => simp
    | assertion_failed w => simp
    | null_dereference => simp
    | bad_get => simp
    | unexpected w => simp

/-- The member `print` reads no vector past its end on a problem that satisfies the
size invariant and whose constraints return as many values as they have outputs. -/
theorem print_in_range (F : Nat) (infinity : V) (p : Problem V)
    (h1 : p.bounds.length = p.scales.length)
    (h2 : sumOutputSize p.constraints = some p.bounds.length)
    (hcon : ∀ c ∈ p.constraints, ∀ g, c.get = some g →
      ∀ v, (g.compute v).length = g.outputSize) :
    (p.print F infinity).1 ≠ Status.out_of_range := by
  have hloop : ∀ o, (visitConstraints F (printConstraint p) p.constraints 0 0 o).1 ≠
      Status.out_of_range := fun o =>
    visitConstraints_in_range F p h1 hcon p.constraints [] 0 p.bounds.length o rfl h2
      (by omega)
  have hcount := countConstraints_ne_out_of_range F p.constraints 0
  unfold Problem.print
  simp only []
  split
  · rename_i o1 hc
    split
    · simp
    · rename_i e o2 hne hv
      have := hloop o1
      rw [hv] at this
      exact nothrow_ne_out_of_range e this
  · rename_i e o1 hne hc
    apply nothrow_ne_out_of_range
    intro he
    subst he
    split at hc
    · cases hc
    · split at hc
      · cases hc
      · rename_i e2 n hne2 hcnt
        rw [hcnt] at hcount
        cases hc
        exact hcount rfl

end PrintLemmas2

section RecordLemmas

variable {V : Type}

/-- The pairs `(ci, bi)` that the second loop of `print` hands to its visitor: `ci` is
a position in `constraints ()` and `bi` is the sum of the output sizes before it. -/
theorem visitConstraints_record (F : Nat) (p : Problem V) (rest : constraints_t V) :
    ∀ (pre : constraints_t V) (bi : Nat) (log : List (Nat × Nat)),
      p.constraints = pre ++ rest → sumOutputSize pre = some bi →
      (∀ kb ∈ log, kb.1 < p.constraints.length ∧
        sumOutputSize (p.constraints.take kb.1) = some kb.2) →
      ∀ kb ∈ (visitConstraints F recordVisit rest pre.length bi log).2,
        kb.1 < p.constraints.length ∧
          sumOutputSize (p.constraints.take kb.1) = some kb.2 := by
  induction rest with
  | nil =>
    intro pre bi log _ _ hlog
    simpa [visitConstraints] using hlog
  | cons c rest ih =>
    intro pre bi log hp hsum hlog
    have hlog1 : ∀ kb ∈ log ++ [(pre.length, bi)], kb.1 < p.constraints.length ∧
        sumOutputSize (p.constraints.take kb.1) = some kb.2 := by
      intro kb hkb
      rcases List.mem_append.1 hkb with h | h
      · exact hlog kb h
      · simp only [List.mem_singleton] at h
        subst h
        constructor
        · rw [hp]
          simp
        · rw [hp]
          simpa using hsum
    simp only [visitConstraints, recordVisit]
    split
    · exact hlog1
    · cases hg : c.get with
      | none => exact hlog1
      | some g =>
        simp only []
        have hp2 : p.constraints = (pre ++ [c]) ++ rest := by
          rw [hp]
          simp
        have hsum2 : sumOutputSize (pre ++ [c]) = some (bi + g.outputSize) := by
          rw [sumOutputSize_append_singleton pre c g hg, hsum]
          rfl
        have := ih (pre ++ [c]) (bi + g.outputSize) (log ++ [(pre.length, bi)]) hp2 hsum2
          hlog1
        simpa using this

end RecordLemmas

section ClaimsPrintRange

variable {V : Type} [LT V] [DecidableRel (fun a b : V => a < b)]

/-- A sum over two sequences of handles laid end to end splits into the two sums. -/
theorem sumOutputSize_append_split {W : Type} (pre rest : constraints_t W) (n : Nat)
    (h : sumOutputSize (pre ++ rest) = some n) :
    ∃ a b, sumOutputSize pre = some a ∧ sumOutputSize rest = some b ∧ n = a + b := by
  induction pre generalizing n with
  | nil => exact ⟨0, n, rfl, by simpa using h, by simp⟩
  | cons c pre ih =>
    rw [List.cons_append] at h
    obtain ⟨g, r1, hg, hr1, hn⟩ := sumOutputSize_cons c (pre ++ rest) n h
    obtain ⟨a, b, ha, hb, hab⟩ := ih r1 hr1
    refine ⟨g.outputSize + a, b, ?_, hb, by omega⟩
    simp only [sumOutputSize, hg, ha]

/-- C19: on a problem with `bounds ().size () == scales ().size ()`, both equal to the
sum of `outputSize ()` over the stored constraints, each of which returns as many
values as it has outputs, `print` never reads `bounds ()`, `scales ()` or
`constraints ()` past the end; neither does the visitor when it is applied to
`constraints ()[ci]` with the sum of the output sizes of the constraints before it as
bound index; and every pair `(ci, bi)` that `print` hands to its visitor has `ci` in
range and `bi` equal to that sum. -/
theorem C19_print_reads_in_range (F : Nat) (infinity : V) (p : Problem V)
    (h1 : p.bounds.length = p.scales.length)
    (h2 : sumOutputSize p.constraints = some p.bounds.length)
    (hcon : ∀ c ∈ p.constraints, ∀ g, c.get = some g →
      ∀ v, (g.compute v).length = g.outputSize) :
    (p.print F infinity).1 ≠ Status.out_of_range ∧
      (∀ ci c off o, p.constraints[ci]? = some c →
        sumOutputSize (p.constraints.take ci) = some off →
        (printConstraint p ci off c o).1 ≠ Status.out_of_range) ∧
      (∀ kb ∈ (visitConstraints F recordVisit p.constraints 0 0 []).2,
        kb.1 < p.constraints.length ∧
          sumOutputSize (p.constraints.take kb.1) = some kb.2) := by
  refine ⟨print_in_range F infinity p h1 h2 hcon, ?_, ?_⟩
  · intro ci c off o hci hoff
    obtain ⟨hlt, hc⟩ := List.getElem?_eq_some_iff.1 hci
    have hsplit : p.constraints = p.constraints.take ci ++ (c :: p.constraints.drop (ci + 1)) := by
      rw [← hc, ← List.drop_eq_getElem_cons hlt, List.take_append_drop]
    rw [hsplit] at h2
    obtain ⟨a, b, ha, hb, hab⟩ := sumOutputSize_append_split _ _ _ h2
    rw [hoff] at ha
    cases ha
    obtain ⟨g, r1, hg, _, hr⟩ := sumOutputSize_cons c _ b hb
    apply printConstraint_in_range p ci off c o hci
    · intro g2 hg2
      rw [hg] at hg2
      cases hg2
      constructor <;> omega
    · exact hcon c (List.getElem?_mem hci)
  · exact visitConstraints_record F p p.constraints [] 0 [] rfl rfl
      (fun kb hkb => absurd hkb (List.not_mem_nil kb))

/-- C19 on the problem made by the four example calls, with a starting point: `print`
returns, after visiting the one-output constraint with bound index 0 and the
three-output constraint with bound index 1. -/
theorem C19_print_reads_in_range_witness :
    (acceptedStarted2.bounds.length = acceptedStarted2.scales.length ∧
      sumOutputSize acceptedStarted2.constraints = some acceptedStarted2.bounds.length ∧
      ∀ c ∈ acceptedStarted2.constraints, ∀ g, c.get = some g →
        ∀ v, (g.compute v).length = g.outputSize) ∧
      ((acceptedStarted2.print 0 1000000).1 ≠ Status.out_of_range ∧
        (∀ ci c off o, acceptedStarted2.constraints[ci]? = some c →
          sumOutputSize (acceptedStarted2.constraints.take ci) = some off →
          (printConstraint acceptedStarted2 ci off c o).1 ≠ Status.out_of_range) ∧
        (∀ kb ∈ (visitConstraints 0 recordVisit acceptedStarted2.constraints 0 0 []).2,
          kb.1 < acceptedStarted2.constraints.length ∧
            sumOutputSize (acceptedStarted2.constraints.take kb.1) = some kb.2)) ∧
      (acceptedStarted2.print 0 1000000).1 = Status.returned ∧
      (visitConstraints 0 recordVisit acceptedStarted2.constraints 0 0 []).2 =
        [(0, 0), (1, 1)] := by
  have hcon : ∀ c ∈ acceptedStarted2.constraints, ∀ g, c.get = some g →
      ∀ v, (g.compute v).length = g.outputSize := by
    intro c hc g hg v
    have hcs : acceptedStarted2.constraints = [handle 2 1, handle 2 3] := rfl
    rw [hcs] at hc
    simp only [List.mem_cons, List.mem_singleton, List.not_mem_nil, or_false] at hc
    rcases hc with rfl | rfl
    · cases hg
      simp [constraintFn]
    · cases hg
      simp [constraintFn]
  exact ⟨⟨rfl, rfl, hcon⟩,
    C19_print_reads_in_range 0 1000000 acceptedStarted2 rfl rfl hcon, by decide,
    by decide⟩

end ClaimsPrintRange

/-! ## The affine function -/

section ClaimsAffine

variable {V : Type}

/-- The product of a row given by its coefficients with a vector of the same length is
the sum over the columns of the products of the entries. -/
theorem dot_map_range [Semiring V] (n : Nat) (f : Nat → V) (x : vector_t V)
    (hx : x.length = n) :
    dot ((List.range n).map f) x = ∑ j : Fin n, f j.val * x.getD j.val 0 := by
  induction n generalizing f x with
  | zero => simp [dot]
  | succ n ih =>
    cases x with
    | nil => simp at hx
    | cons x0 xs =>
      have hxs : xs.length = n := by simpa using hx
      have key := ih (fun j => f (j + 1)) xs hxs
      rw [Fin.sum_univ_succ]
      simp only [dot] at key ⊢
      rw [List.range_succ_eq_map, List.map_cons, List.zipWith_cons_cons, List.sum_cons,
        List.map_map]
      simp only [Fin.val_zero, List.getD_cons_zero, Fin.val_succ, List.getD_cons_succ]
      rw [← key]
      rfl

/-- C13: for a matrix `A` with `m` rows and `n` columns and a vector `b` of `m`
entries, the constructor gives a function with `inputSize == n` and `outputSize == m`
that stores `A` and `b`, and for every `x` of `n` entries `impl_compute` gives a vector
of `m` entries whose entry `i` is entry `i` of the matrix-vector product `A x` plus
entry `i` of `b`. Scalars are taken in a semiring. -/
theorem C13_affine_compute [Semiring V] (A : matrix_t V) (b : vector_t V)
    (hb : b.length = A.rows) :
    ∃ f, GenericNumericLinearFunction.ctor A b = some f ∧
      f.inputSize = A.cols ∧ f.outputSize = A.rows ∧ f.A = A ∧ f.b = b ∧
      ∀ x : vector_t V, x.length = A.cols →
        (f.impl_compute x).length = A.rows ∧
        ∀ i : Fin A.rows,
          (f.impl_compute x)[i.val]? =
            some (Matrix.mulVec A.toMatrix (fun j => x.getD j.val 0) i +
              b.getD i.val 0) := by
  refine ⟨{ inputSize := A.cols, outputSize := A.rows, a_ := A, b_ := b }, ?_, rfl, rfl,
    rfl, rfl, ?_⟩
  · simp [GenericNumericLinearFunction.ctor, hb]
  · intro x hx
    constructor
    · simp [GenericNumericLinearFunction.impl_compute, hb]
    · intro i
      have hi : i.val < b.length := by rw [hb]; exact i.isLt
      simp only [GenericNumericLinearFunction.impl_compute, List.getElem?_zipWith,
        List.getElem?_map, List.getElem?_range i.isLt, Option.map_some',
        List.getElem?_eq_getElem hi, List.getD_eq_getElem b 0 hi]
      rw [matrix_t.row, dot_map_range A.cols (A.coeff i.val) x hx]
      rfl

/-- C13 on the identity of size two, `b = [0, 0]` and `x = [3, 4]`: the value is
`[3, 4]`. -/
theorem C13_affine_compute_witness :
    [(0 : Int), 0].length = identity2.rows ∧
      (∃ f, GenericNumericLinearFunction.ctor identity2 [0, 0] = some f ∧
        f.inputSize = identity2.cols ∧ f.outputSize = identity2.rows ∧
        f.A = identity2 ∧ f.b = [0, 0] ∧
        ∀ x : vector_t Int, x.length = identity2.cols →
          (f.impl_compute x).length = identity2.rows ∧
          ∀ i : Fin identity2.rows,
            (f.impl_compute x)[i.val]? =
              some (Matrix.mulVec identity2.toMatrix (fun j => x.getD j.val 0) i +
                [(0 : Int), 0].getD i.val 0)) ∧
      GenericNumericLinearFunction.ctor identity2 [0, 0] = some affineIdentity2 ∧
      affineIdentity2.impl_compute [3, 4] = [3, 4] :=
  ⟨rfl, C13_affine_compute identity2 [0, 0] rfl, rfl, by decide⟩

/-- C14: for the function built from `(A, b)` and any two arguments `x`, `y` of
`inputSize` entries, `impl_jacobian` gives `A` at both, and for every output index
`i < outputSize`, `impl_gradient` at `x` and at `y` is row `i` of `A`, a vector of
`inputSize` entries whose entry `j` is the coefficient `(i, j)` of `A`, and is row `i`
of the jacobian at `x`. -/
theorem C14_affine_derivatives (A : matrix_t V) (b : vector_t V)
    (f : GenericNumericLinearFunction V)
    (hf : GenericNumericLinearFunction.ctor A b = some f) (x y : vector_t V)
    (_hx : x.length = f.inputSize) (_hy : y.length = f.inputSize) :
    f.impl_jacobian x = A ∧ f.impl_jacobian y = A ∧
      ∀ i, i < f.outputSize →
        f.impl_gradient x i = A.row i ∧
        f.impl_gradient y i = A.row i ∧
        (f.impl_jacobian x).row i = f.impl_gradient x i ∧
        (f.impl_gradient x i).length = f.inputSize ∧
        ∀ j : Fin A.cols, ∀ hi : i < A.rows,
          (f.impl_gradient x i)[j.val]? = some (A.toMatrix ⟨i, hi⟩ j) := by
  unfold GenericNumericLinearFunction.ctor at hf
  split at hf
  · cases hf
  · simp only [Option.some.injEq] at hf
    subst hf
    refine ⟨rfl, rfl, ?_⟩
    intro i _
    refine ⟨rfl, rfl, rfl, ?_, ?_⟩
    · simp [GenericNumericLinearFunction.impl_gradient, matrix_t.row]
    · intro j hi
      simp [GenericNumericLinearFunction.impl_gradient, matrix_t.row, matrix_t.toMatrix,
        List.getElem?_range j.isLt]

/-- C14 on the function built from the matrix `[[1, 2, 3], [4, 5, 6]]` and the vector
`[10, 20]`, at `x = [1, 1, 1]` and `y = [0, 7, 9]`: the gradient of output 1 is
`[4, 5, 6]` at both. -/
theorem C14_affine_derivatives_witness :
    (GenericNumericLinearFunction.ctor matrix23 [10, 20] = some affine23 ∧
      [(1 : Int), 1, 1].length = affine23.inputSize ∧
      [(0 : Int), 7, 9].length = affine23.inputSize) ∧
      (affine23.impl_jacobian [1, 1, 1] = matrix23 ∧
        affine23.impl_jacobian [0, 7, 9] = matrix23 ∧
        ∀ i, i < affine23.outputSize →
          affine23.impl_gradient [1, 1, 1] i = matrix23.row i ∧
          affine23.impl_gradient [0, 7, 9] i = matrix23.row i ∧
          (affine23.impl_jacobian [1, 1, 1]).row i = affine23.impl_gradient [1, 1, 1] i ∧
          (affine23.impl_gradient [1, 1, 1] i).length = affine23.inputSize ∧
          ∀ j : Fin matrix23.cols, ∀ hi : i < matrix23.rows,
            (affine23.impl_gradient [1, 1, 1] i)[j.val]? =
              some (matrix23.toMatrix ⟨i, hi⟩ j)) ∧
      affine23.impl_gradient [1, 1, 1] 1 = [4, 5, 6] ∧
      affine23.impl_gradient [0, 7, 9] 1 = [4, 5, 6] :=
  ⟨⟨rfl, rfl, rfl⟩,
    C14_affine_derivatives matrix23 [10, 20] affine23 rfl [1, 1, 1] [0, 7, 9] rfl rfl,
    by decide, by decide⟩

end ClaimsAffine

/-! ## Copy constructors and plot_jac -/

section ClaimsCopyAndPlot

variable {V : Type}

/-- C21, the code at the failing input: the converting constructor builds
`constraints_` empty and then copies the two stored handles of the source through
`constraints_.begin ()`, so the first write is past the end of the vector; the object
at that point has no constraint, while its `bounds ()` and `scales ()` are the four
bounds and scales of the source, and the sum of `outputSize ()` over its constraints
is 0. The same-type copy constructor gives a problem equal to its source, and so does
the converting constructor on a source without constraints. -/
theorem C21_converting_copy_writes_into_empty_constraints :
    accepted2.constraints = [handle 2 1, handle 2 3] ∧
      accepted2.bounds.length = 4 ∧
      (Problem.ctor_convert accepted2).1 = Status.out_of_range ∧
      (Problem.ctor_convert accepted2).2.constraints = [] ∧
      (Problem.ctor_convert accepted2).2.bounds = accepted2.bounds ∧
      (Problem.ctor_convert accepted2).2.scales = accepted2.scales ∧
      sumOutputSize (Problem.ctor_convert accepted2).2.constraints = some 0 ∧
      sumOutputSize (Problem.ctor_convert accepted2).2.constraints ≠
        some (Problem.ctor_convert accepted2).2.bounds.length ∧
      Problem.ctor_copy accepted2 = accepted2 ∧
      Problem.ctor_convert fresh2 = (Status.returned, fresh2) := by
  refine ⟨rfl, rfl, by decide, rfl, rfl, rfl, rfl, by decide, rfl, rfl⟩

/-- The inner loop of `plot_jac` over the columns `s, ..., m`: the entries are appended
with single spaces between them and a newline after the last. -/
theorem plot_jac_row_loop (g : Nat → String) (m : Nat) :
    ∀ (n s : Nat) (str : String), s + n = m →
      (List.range' s (n + 1)).foldl
          (fun str j =>
            let str := str ++ g j
            if j < m then str ++ " " else str ++ "\n")
          str =
        str ++ (separatedBySpaces ((List.range' s (n + 1)).map g) ++ "\n") := by
  intro n
  induction n with
  | zero =>
    intro s str hs
    have hlt : ¬ s < m := by omega
    simp [separatedBySpaces, hlt, String.append_assoc]
  | succ n ih =>
    intro s str hs
    have hlt : s < m := by omega
    rw [List.range'_succ, List.foldl_cons]
    simp only [hlt, if_true]
    rw [ih (s + 1) _ (by omega)]
    rw [List.map_cons, List.range'_succ (s + 1), List.map_cons]
    simp only [separatedBySpaces, String.append_assoc]

/-- The inner loop of `plot_jac` appends line `i` of the data block when the jacobian
has at least one column. -/
theorem plot_jac_row_eq (format : V → String) (normalize : V → V) (jac : matrix_t V)
    (hc : 1 ≤ jac.cols) (i : Nat) (str : String) :
    plot_jac_row format normalize jac i str =
      str ++ dataLine format normalize jac i := by
  obtain ⟨n, hn⟩ : ∃ n, jac.cols = n + 1 := ⟨jac.cols - 1, by omega⟩
  have key := plot_jac_row_loop (fun j => format (normalize (jac.coeff i j))) n n 0 str
    (by omega)
  simp only [plot_jac_row, dataLine, matrix_t.row, hn, List.range_eq_range',
    Nat.add_sub_cancel, List.map_map]
  exact key

/-- A loop that appends one line per index appends the lines laid end to end. -/
theorem foldl_append_lines (h : Nat → String) (l : List Nat) (str : String) :
    l.foldl (fun str i => str ++ h i) str = str ++ concatLines (l.map h) := by
  induction l generalizing str with
  | nil => simp [concatLines]
  | cons a l ih =>
    rw [List.foldl_cons, ih, List.map_cons]
    simp only [concatLines, String.append_assoc]

/-- C22: for a jacobian with `r` rows and `c >= 1` columns, the script of `plot_jac` is
the directives, then the data block, then the line `e`; the data block has one line per
row, line `i` being the `c` formatted entries of row `i` in column order, separated by
single spaces with no space after the last, and ended by a newline; and the directives
hold `set xrange [0:c]` and `set yrange [0:r] reverse`, `c` and `r` being written by
`lexical_cast`. -/
theorem C22_plot_jac_data_block (lexical_cast : Nat → String) (format : V → String)
    (normalize : V → V) (f : DifferentiableFunction V) (arg : vector_t V)
    (hc : 1 ≤ (f.jacobian arg).cols) :
    plot_jac lexical_cast format normalize f arg =
        plot_jac_directives lexical_cast f.getName (f.jacobian arg).cols
            (f.jacobian arg).rows ++
          dataBlock format normalize (f.jacobian arg) ++ "e\n" ∧
      dataBlock format normalize (f.jacobian arg) =
        concatLines ((List.range (f.jacobian arg).rows).map
          (fun i =>
            separatedBySpaces
                (((f.jacobian arg).row i).map (fun x => format (normalize x))) ++
              "\n")) ∧
      ((List.range (f.jacobian arg).rows).map
        (dataLine format normalize (f.jacobian arg))).length = (f.jacobian arg).rows ∧
      (∀ i, (((f.jacobian arg).row i).map (fun x => format (normalize x))).length =
        (f.jacobian arg).cols) ∧
      (∀ i j, j < (f.jacobian arg).cols →
        (((f.jacobian arg).row i).map (fun x => format (normalize x)))[j]? =
          some (format (normalize ((f.jacobian arg).coeff i j)))) ∧
      plot_jac_directives lexical_cast f.getName (f.jacobian arg).cols
          (f.jacobian arg).rows =
        "set title \x27jacobian(" ++ f.getName ++ ")\x27\n" ++
          "set palette defined(0 \x22white\x22,1 \x22blue\x22)\n" ++
          "set grid front\n" ++
          ("set xrange [0:" ++ lexical_cast (f.jacobian arg).cols ++ "]\n") ++
          ("set yrange [0:" ++ lexical_cast (f.jacobian arg).rows ++ "] reverse\n") ++
          "set size ratio -1\n" ++
          "unset colorbox\n" ++
          "plot \x27-\x27 using ($1+0.5):($2+0.5):($3 == 0 ? 0 : 1) " ++
          "matrix with image notitle\n" := by
  refine ⟨?_, rfl, by simp, ?_, ?_, ?_⟩
  · have hrow : (fun (str : String) (cstr_id : Nat) =>
        plot_jac_row format normalize (f.jacobian arg) cstr_id str) =
        fun str i => str ++ dataLine format normalize (f.jacobian arg) i := by
      funext str i
      exact plot_jac_row_eq format normalize (f.jacobian arg) hc i str
    simp only [plot_jac, hrow, foldl_append_lines, dataBlock]
  · intro i
    simp [matrix_t.row]
  · intro i j hj
    simp [matrix_t.row, List.getElem?_range hj]
  · simp [plot_jac_directives]

/-- C22 on a jacobian with two rows and three columns without zero entry: the data
block is two lines of three entries. -/
theorem C22_plot_jac_data_block_witness :
    1 ≤ (plotted23.jacobian [0, 0, 0]).cols ∧
      (plot_jac showSize formatBinary id plotted23 [0, 0, 0] =
          plot_jac_directives showSize plotted23.getName
              (plotted23.jacobian [0, 0, 0]).cols (plotted23.jacobian [0, 0, 0]).rows ++
            dataBlock formatBinary id (plotted23.jacobian [0, 0, 0]) ++ "e\n" ∧
        dataBlock formatBinary id (plotted23.jacobian [0, 0, 0]) =
          concatLines ((List.range (plotted23.jacobian [0, 0, 0]).rows).map
            (fun i =>
              separatedBySpaces
                  (((plotted23.jacobian [0, 0, 0]).row i).map
                    (fun x => formatBinary (id x))) ++
                "\n")) ∧
        ((List.range (plotted23.jacobian [0, 0, 0]).rows).map
          (dataLine formatBinary id (plotted23.jacobian [0, 0, 0]))).length =
            (plotted23.jacobian [0, 0, 0]).rows ∧
        (∀ i, (((plotted23.jacobian [0, 0, 0]).row i).map
          (fun x => formatBinary (id x))).length = (plotted23.jacobian [0, 0, 0]).cols) ∧
        (∀ i j, j < (plotted23.jacobian [0, 0, 0]).cols →
          (((plotted23.jacobian [0, 0, 0]).row i).map
            (fun x => formatBinary (id x)))[j]? =
              some (formatBinary (id ((plotted23.jacobian [0, 0, 0]).coeff i j)))) ∧
        plot_jac_directives showSize plotted23.getName
            (plotted23.jacobian [0, 0, 0]).cols (plotted23.jacobian [0, 0, 0]).rows =
          "set title \x27jacobian(" ++ plotted23.getName ++ ")\x27\n" ++
            "set palette defined(0 \x22white\x22,1 \x22blue\x22)\n" ++
            "set grid front\n" ++
            ("set xrange [0:" ++ showSize (plotted23.jacobian [0, 0, 0]).cols ++ "]\n") ++
            ("set yrange [0:" ++ showSize (plotted23.jacobian [0, 0, 0]).rows ++
              "] reverse\n") ++
            "set size ratio -1\n" ++
            "unset colorbox\n" ++
            "plot \x27-\x27 using ($1+0.5):($2+0.5):($3 == 0 ? 0 : 1) " ++
            "matrix with image notitle\n") ∧
      dataBlock formatBinary id (plotted23.jacobian [0, 0, 0]) =
        "1.00 1.00 1.00\n1.00 1.00 1.00\n" ∧
      showSize (plotted23.jacobian [0, 0, 0]).cols = "3" ∧
      showSize (plotted23.jacobian [0, 0, 0]).rows = "2" :=
  ⟨by decide, C22_plot_jac_data_block showSize formatBinary id plotted23 [0, 0, 0]
    (by decide), by decide, by decide, by decide⟩

end ClaimsCopyAndPlot

end roboptim
